import Mathlib

/-!
# The server configuration builder of the cluster operator

A shallow embedding of `internal/resource/configmap.go`: the builder that renders the
`server-conf` ConfigMap of a RabbitmqCluster and decides whether a change of that
configuration requires the RabbitMQ nodes to be restarted.

Code that lies outside the repository is a parameter of the embedding (`Libs`): the text
syntax of the ini library (which lines of a text are key/value assignments, of which
section, and which text a section is written as) and
`controllerutil.SetControllerReference`.  What the repository's own
code does with the documents, the data map and the restart flag is translated from the source.
-/

namespace Resource

set_option maxRecDepth 100000

/-! ## Constants of `configmap.go` -/

def ServerConfigMapName : String := "server-conf"

def operatorDefaults : String := "operatorDefaults.conf"

def defaultRabbitmqConf : String :=
  "\ncluster_partition_handling = pause_minority\nqueue_master_locator = min-masters\ndisk_free_limit.absolute = 2GB\ncluster_formation.peer_discovery_backend = classic_config\ncluster_formation.randomized_startup_delay_range.min = 0\ncluster_formation.randomized_startup_delay_range.max = 60"

def defaultTLSConf : String :=
  "\nssl_options.certfile = /etc/rabbitmq-tls/tls.crt\nssl_options.keyfile = /etc/rabbitmq-tls/tls.key\nlisteners.ssl.default = 5671\n\nmanagement.ssl.certfile   = /etc/rabbitmq-tls/tls.crt\nmanagement.ssl.keyfile    = /etc/rabbitmq-tls/tls.key\nmanagement.ssl.port       = 15671\n\nprometheus.ssl.certfile  = /etc/rabbitmq-tls/tls.crt\nprometheus.ssl.keyfile   = /etc/rabbitmq-tls/tls.key\nprometheus.ssl.port      = 15691\n"

def caCertPath : String := "/etc/rabbitmq-tls/ca.crt"

def tlsCertPath : String := "/etc/rabbitmq-tls/tls.crt"

def tlsKeyPath : String := "/etc/rabbitmq-tls/tls.key"

/-- Modelled from the spec: the suffix of the stateful workload's name (`server`); the constant
is declared in a file of the package that is not among the sources. -/
def stsSuffix : String := "server"

/-- Modelled from the spec: the suffix of the headless service's name (`headless`); the constant
is declared in a file of the package that is not among the sources. -/
def headlessServiceSuffix : String := "headless"

/-- The prefix of the peer discovery keys, as written in `removeConfigNotRequiringNodeRestart`
and in the `Sprintf` of `Update`. -/
def nodesPrefix : String := "cluster_formation.classic_config.nodes."

/-! ## `removeHeadroom` -/

def GiB : Int := 1073741824

/-- Two's complement wrap-around of a 64-bit signed integer. -/
def wrapInt64 (x : Int) : Int := (x + 2 ^ 63) % 2 ^ 64 - 2 ^ 63

/-- The function `removeHeadroom` of the source: Go's `/` on `int64` truncates towards zero (`Int.tdiv`),
and `-` wraps around. -/
def removeHeadroom (memLimit : Int) : Int :=
  if memLimit.tdiv 5 > 2 * GiB then
    wrapInt64 (memLimit - 2 * GiB)
  else
    wrapInt64 (memLimit - memLimit.tdiv 5)

/-! ## Kubernetes objects -/

structure OwnerReference where
  APIVersion : String
  Kind : String
  Name : String
  UID : String
  Controller : Bool
  BlockOwnerDeletion : Bool
deriving DecidableEq

/-- The metadata of an object, as far as the builder or the owner reference can see it.
Labels and annotations are lists kept in one fixed order. -/
structure ObjectMeta where
  Name : String
  Namespace : String
  UID : String
  Labels : List (String × String)
  Annotations : List (String × String)
  OwnerReferences : List OwnerReference
deriving DecidableEq

/-- The `Data` of a ConfigMap, a Go `map[string]string`: an association list read through
`Data.get`.  The nil map and the empty map are both `[]`; the source never tells them apart
(it indexes, deletes, and allocates before the first assignment). -/
abbrev Data := List (String × String)

/-- The lookup `v, ok := m[k]`. -/
def Data.get (m : Data) (k : String) : Option String := List.lookup k m

/-- The index expression `m[k]`, the zero value `""` when the key is absent. -/
def Data.index (m : Data) (k : String) : String := (Data.get m k).getD ""

/-- The statement `delete(m, k)`. -/
def Data.delete (m : Data) (k : String) : Data := m.filter (fun kv => kv.1 != k)

/-- The assignment `m[k] = v`. -/
def Data.set (m : Data) (k v : String) : Data := (k, v) :: Data.delete m k

/-- Equality of two maps: the same keys with the same values. -/
def Data.equal (a b : Data) : Bool :=
  a.all (fun kv => Data.get b kv.1 == Data.get a kv.1) &&
  b.all (fun kv => Data.get a kv.1 == Data.get b kv.1)

structure ConfigMap extends ObjectMeta where
  Data : Data

/-- The call `equality.Semantic.DeepEqual` on two ConfigMaps: equal metadata and equal data maps. -/
def DeepEqual (a b : ConfigMap) : Bool :=
  decide (a.toObjectMeta = b.toObjectMeta) && Data.equal a.Data b.Data

/-! ## The cluster resource -/

structure RabbitmqClusterConfigurationSpec where
  AdditionalConfig : String
  AdvancedConfig : String
  EnvConfig : String
deriving DecidableEq

/-- The part of the RabbitmqCluster spec that `configmap.go` reads.  The API type and its
methods are declared outside the sources, so the results of `TLSEnabled()`,
`MutualTLSEnabled()`, `DisableNonTLSListeners()`, the list behind
`AdditionalPluginEnabled` and the declared memory limit (`MemoryLimited()` with
`Resources.Limits.Memory().Value()`, in bytes) are fields. -/
structure RabbitmqClusterSpec where
  Replicas : Option Int
  TLSEnabled : Bool
  MutualTLSEnabled : Bool
  DisableNonTLSListeners : Bool
  AdditionalPlugins : List String
  MemoryLimit : Option Int
  Rabbitmq : RabbitmqClusterConfigurationSpec
deriving DecidableEq

structure RabbitmqCluster extends ObjectMeta where
  Spec : RabbitmqClusterSpec
deriving DecidableEq

/-- Modelled from the spec: `ChildResourceName` is declared with the API type, outside the
sources; the spec gives the child object name as `<clusterName>-<suffix>`. -/
def RabbitmqCluster.ChildResourceName (inst : RabbitmqCluster) (suffix : String) : String :=
  inst.Name ++ "-" ++ suffix

/-- Modelled from the spec: `AdditionalPluginEnabled` is declared with the API type, outside
the sources; the spec has `additionalPlugins` as a set of plugin identifiers. -/
def RabbitmqCluster.AdditionalPluginEnabled (inst : RabbitmqCluster) (plugin : String) : Bool :=
  inst.Spec.AdditionalPlugins.contains plugin

/-- The helper `pointer.Int32PtrDerefOr`. -/
def Int32PtrDerefOr (ptr : Option Int) (default : Int) : Int := ptr.getD default

/-! ## The ini library -/

/-- A section of an ini file: its keys in the order in which they were first assigned, each
with its current value.  Comments are outside the model. -/
abbrev Section := List (String × String)

/-- An ini file as `ini.Load` builds it: the default section `Section("")` and the named
sections in the order of their first header.  `Update` builds its two documents in default
sections: the templates have no header, and a header inside `additionalConfig` is outside
the model.  The text `removeConfigNotRequiringNodeRestart` loads is whatever the object at
hand holds, named sections included. -/
structure File where
  Default : Section
  Named : List (String × Section)
deriving DecidableEq

/-- The calls into code outside the repository: the text syntax of `gopkg.in/ini.v1` and
the controller reference of controller-runtime.  What a theorem needs of them is one of
its hypotheses. -/
structure Libs where
  /-- The key/value assignments a text makes in the default section, in order of appearance,
  or `none` when the ini parser rejects the text. -/
  parse : String → Option (List (String × String))
  /-- The named sections of a text the parser accepts, in the order of their first header,
  each with the keys the text assigns in it; empty for a text without a section header. -/
  namedSections : String → List (String × Section)
  /-- The text `File.WriteTo` writes for the default section (with `PrettySection = false`). -/
  render : Section → String
  /-- The text `File.WriteTo` writes for a named section: its header, then its keys. -/
  renderNamed : String → Section → String
  /-- The call `controllerutil.SetControllerReference(owner, controlled, scheme)`: from the
  owner's and the controlled object's metadata, the controlled object's new metadata, or
  `none` when the call returns an error. -/
  SetControllerReference : ObjectMeta → ObjectMeta → Option ObjectMeta

/-- The assignment `Section.NewKey` makes: a name that exists already keeps its place and
takes the new value (shadow values are off by default); a new name goes to the end. -/
def Section.put (s : Section) (name val : String) : Section :=
  if s.any (fun kv => kv.1 == name) then
    s.map (fun kv => if kv.1 = name then (name, val) else kv)
  else s ++ [(name, val)]

/-- The method `Section.NewKey`: an empty name is an error, any other name is assigned. -/
def Section.NewKey (s : Section) (name val : String) : Option Section :=
  if name = "" then none else some (Section.put s name val)

/-- The method `Section.KeyStrings`. -/
def Section.KeyStrings (s : Section) : List String := s.map Prod.fst

/-- The method `Section.DeleteKey`: removes the first key of that name. -/
def Section.DeleteKey (s : Section) (name : String) : Section :=
  s.eraseP (fun kv => kv.1 == name)

/-- The parser's loop: every assignment of the text goes through `NewKey`. -/
def Section.assign (s : Section) (kvs : List (String × String)) : Option Section :=
  kvs.foldlM (fun sec kv => Section.NewKey sec kv.1 kv.2) s

/-- The call `ini.Load` of a text, as the default section it yields. -/
def Load (L : Libs) (source : String) : Option Section :=
  (L.parse source).bind (Section.assign [])

/-- The call `ini.Load` of a text, as the file it yields. -/
def LoadFile (L : Libs) (source : String) : Option File :=
  (Load L source).map (fun sec => { Default := sec, Named := L.namedSections source })

/-- The method `File.WriteTo` (with `PrettySection = false`): the text of the default
section, then the text of each named section in turn. -/
def WriteTo (L : Libs) (f : File) : String :=
  f.Named.foldl (fun text sec => text ++ L.renderNamed sec.1 sec.2) (L.render f.Default)

/-- The call `File.Append` of a text to a file whose default section is `s`.  The library
reads its earlier sources again as well; in `Update` the only earlier source is the TLS
template, whose keys still hold the template's values, so that reading changes nothing. -/
def Append (L : Libs) (s : Section) (source : String) : Option Section :=
  (L.parse source).bind (Section.assign s)

/-- The function `strings.HasPrefix`. -/
def HasPrefix (s pre : String) : Bool := pre.data.isPrefixOf s.data

/-! ## The builder -/

/-- The builder of the `server-conf` ConfigMap.  Of the embedded `RabbitmqResourceBuilder` it
keeps the cluster; the scheme is only handed on to `SetControllerReference`, a parameter
here. -/
structure ServerConfigMapBuilder where
  Instance : RabbitmqCluster
  /-- Set to true if the config change requires RabbitMQ nodes to be restarted. -/
  UpdateRequiresStsRestart : Bool
deriving DecidableEq

/-- The constructor `RabbitmqResourceBuilder.ServerConfigMap`: the flag starts out true. -/
def ServerConfigMap (instance_ : RabbitmqCluster) : ServerConfigMapBuilder :=
  { Instance := instance_, UpdateRequiresStsRestart := true }

/-- The method `ServerConfigMapBuilder.UpdateMayRequireStsRecreate`. -/
def UpdateMayRequireStsRecreate (_builder : ServerConfigMapBuilder) : Bool := false

/-- The function `updateProperty`: an empty value deletes the key. -/
def updateProperty (configMapData : Data) (key value : String) : Data :=
  if value = "" then Data.delete configMapData key
  else Data.set configMapData key value

/-- The loop of `removeConfigNotRequiringNodeRestart` over `KeyStrings()`. -/
def deleteNodeKeys (defaultSection : Section) : Section :=
  (Section.KeyStrings defaultSection).foldl
    (fun sec key => if HasPrefix key nodesPrefix then Section.DeleteKey sec key else sec)
    defaultSection

/-- The function `removeConfigNotRequiringNodeRestart`: `none` is the error return,
otherwise the ConfigMap as the function leaves it.  The keys are deleted from the default
section, and the whole file is written back. -/
def removeConfigNotRequiringNodeRestart (L : Libs) (configMap : ConfigMap) : Option ConfigMap :=
  let operatorConf := Data.index configMap.Data operatorDefaults
  if operatorConf = "" then some configMap
  else
    match LoadFile L operatorConf with
    | none => none
    | some conf =>
      let defaultSection := deleteNodeKeys conf.Default
      some { configMap with
        Data := Data.set configMap.Data operatorDefaults
          (WriteTo L { Default := defaultSection, Named := conf.Named }) }

/-- The key and the value of the peer entry that `Update` creates in loop round `i`. -/
def nodeEntry (inst : RabbitmqCluster) (i : Nat) : String × String :=
  (nodesPrefix ++ toString (i + 1),
   "rabbit@" ++ inst.ChildResourceName stsSuffix ++ "-" ++ toString i ++ "." ++
     inst.ChildResourceName headlessServiceSuffix ++ "." ++ inst.Namespace)

/-- Lines 87 to 104 of `Update`: the operator's document, the template with one peer entry
per replica and the cluster name. -/
def operatorConfiguration (L : Libs) (inst : RabbitmqCluster) : Option Section := do
  let defaultSection ← Load L defaultRabbitmqConf
  let defaultSection ←
    (List.range (Int32PtrDerefOr inst.Spec.Replicas 1).toNat).foldlM
      (fun sec i => Section.NewKey sec (nodeEntry inst i).1 (nodeEntry inst i).2)
      defaultSection
  Section.NewKey defaultSection "cluster_name" inst.Name

/-- Lines 109 to 149 of `Update`: the TLS block. -/
def tlsConfiguration (L : Libs) (inst : RabbitmqCluster) (sec : Section) : Option Section :=
  if inst.Spec.TLSEnabled then do
    let sec ← Append L sec defaultTLSConf
    let sec ←
      if inst.Spec.DisableNonTLSListeners then
        Section.NewKey sec "listeners.tcp" "none"
      else do
        let sec ← Section.NewKey sec "management.tcp.port" "15672"
        Section.NewKey sec "prometheus.tcp.port" "15692"
    let sec ←
      if inst.AdditionalPluginEnabled "rabbitmq_mqtt" then do
        let sec ← Section.NewKey sec "mqtt.listeners.ssl.default" "8883"
        if inst.Spec.DisableNonTLSListeners then
          Section.NewKey sec "mqtt.listeners.tcp" "none"
        else pure sec
      else pure sec
    if inst.AdditionalPluginEnabled "rabbitmq_stomp" then do
      let sec ← Section.NewKey sec "stomp.listeners.ssl.1" "61614"
      if inst.Spec.DisableNonTLSListeners then
        Section.NewKey sec "stomp.listeners.tcp" "none"
      else pure sec
    else pure sec
  else pure sec

/-- Lines 151 to 205 of `Update`: the mutual TLS block. -/
def mutualTLSConfiguration (inst : RabbitmqCluster) (sec : Section) : Option Section :=
  if inst.Spec.MutualTLSEnabled then do
    let sec ← Section.NewKey sec "ssl_options.cacertfile" caCertPath
    let sec ← Section.NewKey sec "ssl_options.verify" "verify_peer"
    let sec ← Section.NewKey sec "management.ssl.cacertfile" caCertPath
    let sec ← Section.NewKey sec "prometheus.ssl.cacertfile" caCertPath
    let sec ←
      if inst.AdditionalPluginEnabled "rabbitmq_web_mqtt" then do
        let sec ← Section.NewKey sec "web_mqtt.ssl.port" "15676"
        let sec ← Section.NewKey sec "web_mqtt.ssl.cacertfile" caCertPath
        let sec ← Section.NewKey sec "web_mqtt.ssl.certfile" tlsCertPath
        let sec ← Section.NewKey sec "web_mqtt.ssl.keyfile" tlsKeyPath
        if inst.Spec.DisableNonTLSListeners then
          Section.NewKey sec "web_mqtt.tcp.listener" "none"
        else pure sec
      else pure sec
    if inst.AdditionalPluginEnabled "rabbitmq_web_stomp" then do
      let sec ← Section.NewKey sec "web_stomp.ssl.port" "15673"
      let sec ← Section.NewKey sec "web_stomp.ssl.cacertfile" caCertPath
      let sec ← Section.NewKey sec "web_stomp.ssl.certfile" tlsCertPath
      let sec ← Section.NewKey sec "web_stomp.ssl.keyfile" tlsKeyPath
      if inst.Spec.DisableNonTLSListeners then
        Section.NewKey sec "web_stomp.tcp.listener" "none"
      else pure sec
    else pure sec
  else pure sec

/-- Lines 207 to 211 of `Update`: the memory override. -/
def memoryConfiguration (inst : RabbitmqCluster) (sec : Section) : Option Section :=
  match inst.Spec.MemoryLimit with
  | some limit =>
    Section.NewKey sec "total_memory_available_override_value" (toString (removeHeadroom limit))
  | none => pure sec

/-- Lines 106 to 211 of `Update`: the user document before `additionalConfig` is appended. -/
def userConfiguration (L : Libs) (inst : RabbitmqCluster) : Option Section := do
  let sec ← tlsConfiguration L inst []
  let sec ← mutualTLSConfiguration inst sec
  memoryConfiguration inst sec

/-- What a call of `Update` leaves behind: whether it returned an error, the object it
was given as the call left it, and the builder with its flag. -/
structure UpdateResult where
  err : Bool
  object : ConfigMap
  builder : ServerConfigMapBuilder

/-- The method `ServerConfigMapBuilder.Update`.  Nothing is written to the object before line 222, so
the error returns up to there leave it as it was; from there on each error return leaves
the assignments made so far. -/
def Update (L : Libs) (builder : ServerConfigMapBuilder) (object : ConfigMap) : UpdateResult :=
  let previousConfigMap := object
  match operatorConfiguration L builder.Instance with
  | none => ⟨true, object, builder⟩
  | some operatorConf =>
  match userConfiguration L builder.Instance with
  | none => ⟨true, object, builder⟩
  | some userConf =>
  let configMap : ConfigMap :=
    { object with Data := Data.set object.Data operatorDefaults (L.render operatorConf) }
  let rmqProperties := builder.Instance.Spec.Rabbitmq
  match Append L userConf rmqProperties.AdditionalConfig with
  | none => ⟨true, configMap, builder⟩
  | some userConf =>
  let configMap : ConfigMap :=
    { configMap with
      Data := Data.set configMap.Data "userDefinedConfiguration.conf" (L.render userConf) }
  let configMap : ConfigMap :=
    { configMap with
      Data := updateProperty configMap.Data "advanced.config" rmqProperties.AdvancedConfig }
  let configMap : ConfigMap :=
    { configMap with
      Data := updateProperty configMap.Data "rabbitmq-env.conf" rmqProperties.EnvConfig }
  match L.SetControllerReference builder.Instance.toObjectMeta configMap.toObjectMeta with
  | none => ⟨true, configMap, builder⟩
  | some ownedMeta =>
  let configMap : ConfigMap := { configMap with toObjectMeta := ownedMeta }
  let updatedConfigMap := configMap
  match removeConfigNotRequiringNodeRestart L previousConfigMap with
  | none => ⟨true, configMap, builder⟩
  | some previousConfigMap =>
  match removeConfigNotRequiringNodeRestart L updatedConfigMap with
  | none => ⟨true, configMap, builder⟩
  | some updatedConfigMap =>
  if DeepEqual previousConfigMap updatedConfigMap then
    ⟨false, configMap, { builder with UpdateRequiresStsRestart := false }⟩
  else
    ⟨false, configMap, builder⟩

/-- The data map after the assignments of lines 222 to 238 of `Update`, given the operator's
document and the user's document. -/
def renderedData (L : Libs) (inst : RabbitmqCluster) (operatorConf userConf : Section)
    (data : Data) : Data :=
  updateProperty
    (updateProperty
      (Data.set (Data.set data operatorDefaults (L.render operatorConf))
        "userDefinedConfiguration.conf" (L.render userConf))
      "advanced.config" inst.Spec.Rabbitmq.AdvancedConfig)
    "rabbitmq-env.conf" inst.Spec.Rabbitmq.EnvConfig

/-- The cluster with another replica count and nothing else changed. -/
def RabbitmqCluster.withReplicas (inst : RabbitmqCluster) (replicas : Option Int) :
    RabbitmqCluster :=
  { inst with Spec := { inst.Spec with Replicas := replicas } }

/-- The entries `removeConfigNotRequiringNodeRestart` leaves in place. -/
def keepsEntry (kv : String × String) : Bool := !HasPrefix kv.1 nodesPrefix

/-- Setting the controller reference of an object that already carries it changes nothing. -/
def Libs.ControllerReferenceIdempotent (L : Libs) : Prop :=
  ∀ owner controlled owned,
    L.SetControllerReference owner controlled = some owned →
      L.SetControllerReference owner owned = some owned

/-- Writing the section gives a text that is not empty and that loads as the same section,
with no named section beside it. -/
def Libs.ReadsBack (L : Libs) (s : Section) : Prop :=
  L.render s ≠ "" ∧ LoadFile L (L.render s) = some { Default := s, Named := [] }

/-- The operator's document over the template's section `base`: one peer entry per replica,
then the cluster name. -/
def operatorSection (inst : RabbitmqCluster) (base : Section) : Section :=
  Section.put
    ((List.range (Int32PtrDerefOr inst.Spec.Replicas 1).toNat).foldl
      (fun sec i => Section.put sec (nodeEntry inst i).1 (nodeEntry inst i).2) base)
    "cluster_name" inst.Name

/-- The six entries of `defaultRabbitmqConf`, line by line. -/
def defaultRabbitmqEntries : List (String × String) :=
  [("cluster_partition_handling", "pause_minority"),
   ("queue_master_locator", "min-masters"),
   ("disk_free_limit.absolute", "2GB"),
   ("cluster_formation.peer_discovery_backend", "classic_config"),
   ("cluster_formation.randomized_startup_delay_range.min", "0"),
   ("cluster_formation.randomized_startup_delay_range.max", "60")]

/-- The nine entries of `defaultTLSConf`, line by line. -/
def defaultTLSEntries : List (String × String) :=
  [("ssl_options.certfile", "/etc/rabbitmq-tls/tls.crt"),
   ("ssl_options.keyfile", "/etc/rabbitmq-tls/tls.key"),
   ("listeners.ssl.default", "5671"),
   ("management.ssl.certfile", "/etc/rabbitmq-tls/tls.crt"),
   ("management.ssl.keyfile", "/etc/rabbitmq-tls/tls.key"),
   ("management.ssl.port", "15671"),
   ("prometheus.ssl.certfile", "/etc/rabbitmq-tls/tls.crt"),
   ("prometheus.ssl.keyfile", "/etc/rabbitmq-tls/tls.key"),
   ("prometheus.ssl.port", "15691")]

/-- The number a list of decimal digits stands for. -/
def decimalValue (cs : List Char) : Nat :=
  cs.foldl (fun acc c => acc * 10 + (c.toNat - 48)) 0

/-- The value a section holds for a key. -/
def Section.value (s : Section) (k : String) : Option String := List.lookup k s

/-- A run of assignments, in order. -/
def Section.putAll (s : Section) (kvs : List (String × String)) : Section :=
  kvs.foldl (fun sec kv => Section.put sec kv.1 kv.2) s

/-- The `NewKey` calls of lines 113 to 128, after the TLS template. -/
def listenerEntries (inst : RabbitmqCluster) : List (String × String) :=
  if inst.Spec.DisableNonTLSListeners then [("listeners.tcp", "none")]
  else [("management.tcp.port", "15672"), ("prometheus.tcp.port", "15692")]

/-- The `NewKey` calls of lines 129 to 148. -/
def pluginTLSEntries (inst : RabbitmqCluster) : List (String × String) :=
  (if inst.AdditionalPluginEnabled "rabbitmq_mqtt" then
      ("mqtt.listeners.ssl.default", "8883") ::
        (if inst.Spec.DisableNonTLSListeners then [("mqtt.listeners.tcp", "none")] else [])
    else []) ++
  (if inst.AdditionalPluginEnabled "rabbitmq_stomp" then
      ("stomp.listeners.ssl.1", "61614") ::
        (if inst.Spec.DisableNonTLSListeners then [("stomp.listeners.tcp", "none")] else [])
    else [])

/-- The `NewKey` calls of lines 151 to 205. -/
def mutualTLSEntries (inst : RabbitmqCluster) : List (String × String) :=
  if inst.Spec.MutualTLSEnabled then
    [("ssl_options.cacertfile", caCertPath), ("ssl_options.verify", "verify_peer"),
      ("management.ssl.cacertfile", caCertPath), ("prometheus.ssl.cacertfile", caCertPath)] ++
    (if inst.AdditionalPluginEnabled "rabbitmq_web_mqtt" then
        [("web_mqtt.ssl.port", "15676"), ("web_mqtt.ssl.cacertfile", caCertPath),
          ("web_mqtt.ssl.certfile", tlsCertPath), ("web_mqtt.ssl.keyfile", tlsKeyPath)] ++
        (if inst.Spec.DisableNonTLSListeners then [("web_mqtt.tcp.listener", "none")] else [])
      else []) ++
    (if inst.AdditionalPluginEnabled "rabbitmq_web_stomp" then
        [("web_stomp.ssl.port", "15673"), ("web_stomp.ssl.cacertfile", caCertPath),
          ("web_stomp.ssl.certfile", tlsCertPath), ("web_stomp.ssl.keyfile", tlsKeyPath)] ++
        (if inst.Spec.DisableNonTLSListeners then [("web_stomp.tcp.listener", "none")] else [])
      else [])
  else []

/-- The `NewKey` call of lines 207 to 211. -/
def memoryEntries (inst : RabbitmqCluster) : List (String × String) :=
  match inst.Spec.MemoryLimit with
  | some limit => [("total_memory_available_override_value", toString (removeHeadroom limit))]
  | none => []

/-- What `Update` assigns to the user document after the listener entries: the keys of the
plugins, of mutual TLS and of the memory override. -/
def laterEntries (inst : RabbitmqCluster) : List (String × String) :=
  (if inst.Spec.TLSEnabled then pluginTLSEntries inst else []) ++ mutualTLSEntries inst ++
    memoryEntries inst

/-- Every assignment `Update` makes to the user document before `additionalConfig`, in
order, with the TLS template as its nine entries. -/
def injectedEntries (inst : RabbitmqCluster) : List (String × String) :=
  (if inst.Spec.TLSEnabled then defaultTLSEntries ++ listenerEntries inst else []) ++
    laterEntries inst

/-- The keys of the TLS listener block: the template's nine and the three of lines 113 to
128. -/
def tlsBlockKeys : List String :=
  defaultTLSEntries.map Prod.fst ++
    ["listeners.tcp", "management.tcp.port", "prometheus.tcp.port"]

/-- The keys `laterEntries` can assign. -/
def laterKeys : List String :=
  ["mqtt.listeners.ssl.default", "mqtt.listeners.tcp", "stomp.listeners.ssl.1",
    "stomp.listeners.tcp", "ssl_options.cacertfile", "ssl_options.verify",
    "management.ssl.cacertfile", "prometheus.ssl.cacertfile", "web_mqtt.ssl.port",
    "web_mqtt.ssl.cacertfile", "web_mqtt.ssl.certfile", "web_mqtt.ssl.keyfile",
    "web_mqtt.tcp.listener", "web_stomp.ssl.port", "web_stomp.ssl.cacertfile",
    "web_stomp.ssl.certfile", "web_stomp.ssl.keyfile", "web_stomp.tcp.listener",
    "total_memory_available_override_value"]

/-- The cluster with TLS enabled and nothing else changed. -/
def RabbitmqCluster.withTLSEnabled (inst : RabbitmqCluster) : RabbitmqCluster :=
  { inst with Spec := { inst.Spec with TLSEnabled := true } }

/-- The user document `Update` writes: what it assigns itself, then `additionalConfig`
appended (lines 106 to 227). -/
def userDocument (L : Libs) (inst : RabbitmqCluster) : Option Section :=
  (userConfiguration L inst).bind (fun sec => Append L sec inst.Spec.Rabbitmq.AdditionalConfig)

/-- The two functions of the package `internal/metadata` that `Build` calls.  The package
is not among the sources, so they are parameters. -/
structure MetadataFuncs where
  GetLabels : String → List (String × String) → List (String × String)
  ReconcileAndFilterAnnotations :
    List (String × String) → List (String × String) → List (String × String)

/-- The method `ServerConfigMapBuilder.Build`: `some` is the object returned with a nil
error; the source has no error return.  The fields the literal does not mention are the
zero values, the data map among them. -/
def Build (M : MetadataFuncs) (builder : ServerConfigMapBuilder) : Option ConfigMap :=
  some
    { Name := builder.Instance.ChildResourceName ServerConfigMapName
      Namespace := builder.Instance.Namespace
      UID := ""
      Labels := M.GetLabels builder.Instance.Name builder.Instance.Labels
      Annotations := M.ReconcileAndFilterAnnotations [] builder.Instance.Annotations
      OwnerReferences := []
      Data := [] }

/-- In the words of the specification, a peer entry: its key is
`cluster_formation.classic_config.nodes.` followed by anything. -/
def Spec.isPeerEntry (kv : String × String) : Bool :=
  "cluster_formation.classic_config.nodes.".data.isPrefixOf kv.1.data

/-- In the words of the specification, the document without its peer entries: the other
entries, in their order.  The rendered files have a single unnamed section, and it is there
that the entries are removed; a named section stays as it is. -/
def Spec.withoutPeerEntries (f : File) : File :=
  { Default := f.Default.filter (fun kv => !Spec.isPeerEntry kv), Named := f.Named }

/-- In the words of the specification, a data entry of an object after normalisation: the
text under `operatorDefaults.conf` is parsed, rid of its peer entries and written again (an
empty text holds no entry and stays empty); every other entry is as the object has it.
The result is `none` for a key the object does not have, and for an `operatorDefaults.conf`
that does not parse. -/
def Spec.normalizedEntry (L : Libs) (cm : ConfigMap) (k : String) : Option String :=
  if k = "operatorDefaults.conf" then
    (Data.get cm.Data k).bind (fun text =>
      if text = "" then some ""
      else (LoadFile L text).map (fun f => WriteTo L (Spec.withoutPeerEntries f)))
  else Data.get cm.Data k

/-- The `operatorDefaults.conf` of the object parses, if the object has one that is not
empty. -/
def Spec.Parses (L : Libs) (cm : ConfigMap) : Prop :=
  ∀ text, Data.get cm.Data "operatorDefaults.conf" = some text → text ≠ "" →
    ∃ f, LoadFile L text = some f

/-- In the words of the specification, the comparison after normalisation: two objects
differ when their metadata differ or when some data entry, normalised, is not the same in
both. -/
def Spec.DifferWithoutPeerEntries (L : Libs) (previous updated : ConfigMap) : Prop :=
  previous.toObjectMeta ≠ updated.toObjectMeta ∨
    ∃ k, Spec.normalizedEntry L previous k ≠ Spec.normalizedEntry L updated k

/-! ## A plain instance of the libraries

Line-oriented `key = value` text, with the lines after a header `[name]` in the section of
that name, and a controller reference that is added to, or replaced in, the list of owner
references. -/

namespace Plain

def isSpace (c : Char) : Bool := c = ' ' || c = '\t' || c = '\r'

def trim (cs : List Char) : List Char :=
  ((cs.dropWhile isSpace).reverse.dropWhile isSpace).reverse

def lines (cs : List Char) : List (List Char) :=
  cs.foldr
    (fun c acc =>
      if c = '\n' then [] :: acc
      else
        match acc with
        | [] => [[c]]
        | l :: ls => (c :: l) :: ls)
    [[]]

/-- What a line of text is: blank or a comment, the header of a section, or an
assignment. -/
inductive Line where
  | blank
  | header (name : String)
  | assignment (kv : String × String)
deriving DecidableEq

/-- The name between the brackets of a header line, `none` when the bracket is not closed
or the name is empty. -/
def parseHeader (rest : List Char) : Option Line :=
  match rest.reverse with
  | ']' :: name =>
    if trim name = [] then none else some (Line.header (String.mk (trim name.reverse)))
  | _ => none

/-- A line is blank or a comment, a header, an assignment, or not acceptable (`none`). -/
def parseLine (line : List Char) : Option Line :=
  match trim line with
  | [] => some Line.blank
  | c :: cs =>
    if c = '#' || c = ';' then some Line.blank
    else if c = '[' then parseHeader cs
    else
      match (c :: cs).span (fun x => x != '=') with
      | (k, _ :: v) =>
        if trim k = [] then none
        else some (Line.assignment (String.mk (trim k), String.mk (trim v)))
      | (_, []) => none

/-- The assignments of the default section: those before the first header. -/
def defaultAssignments : List Line → List (String × String)
  | [] => []
  | Line.blank :: ls => defaultAssignments ls
  | Line.assignment kv :: ls => kv :: defaultAssignments ls
  | Line.header _ :: _ => []

/-- The assignment `NewKey` makes in the section of that name. -/
def assignIn (secs : List (String × Section)) (name : String) (kv : String × String) :
    List (String × Section) :=
  secs.map (fun sec => if sec.1 = name then (sec.1, Section.put sec.2 kv.1 kv.2) else sec)

/-- The named sections of the lines that follow, with `current` the section the lines are
in and `secs` the named sections so far. -/
def sectionsOf : Option String → List Line → List (String × Section) → List (String × Section)
  | _, [], secs => secs
  | current, Line.blank :: ls, secs => sectionsOf current ls secs
  | _, Line.header name :: ls, secs =>
    sectionsOf (some name) ls
      (if secs.any (fun sec => sec.1 == name) then secs else secs ++ [(name, [])])
  | some name, Line.assignment kv :: ls, secs => sectionsOf (some name) ls (assignIn secs name kv)
  | none, Line.assignment _ :: ls, secs => sectionsOf none ls secs

def parse (source : String) : Option (List (String × String)) :=
  ((lines source.data).mapM parseLine).map defaultAssignments

def namedSections (source : String) : List (String × Section) :=
  match (lines source.data).mapM parseLine with
  | some ls => sectionsOf none ls []
  | none => []

def pad (n : Nat) (s : String) : String :=
  String.mk (s.data ++ List.replicate (n - s.data.length) ' ')

/-- Keys padded to the longest key, then ` = `, the value and a line break. -/
def render (s : Section) : String :=
  let width := (s.map (fun kv => kv.1.data.length)).foldl max 0
  String.join (s.map (fun kv => pad width kv.1 ++ " = " ++ kv.2 ++ "\n"))

/-- The header in brackets on a line of its own, then the keys as in the default section. -/
def renderNamed (name : String) (s : Section) : String :=
  "[" ++ name ++ "]\n" ++ render s

def referSameObject (a b : OwnerReference) : Bool :=
  a.APIVersion = b.APIVersion && a.Kind = b.Kind && a.Name = b.Name

def upsertOwnerRef (ref : OwnerReference) : List OwnerReference → List OwnerReference
  | [] => [ref]
  | r :: rs => if referSameObject r ref then ref :: rs else r :: upsertOwnerRef ref rs

def SetControllerReference (owner controlled : ObjectMeta) : Option ObjectMeta :=
  if owner.Namespace ≠ "" ∧ owner.Namespace ≠ controlled.Namespace then none
  else
    let ref : OwnerReference :=
      { APIVersion := "rabbitmq.com/v1beta1", Kind := "RabbitmqCluster", Name := owner.Name,
        UID := owner.UID, Controller := true, BlockOwnerDeletion := true }
    if controlled.OwnerReferences.any (fun r => r.Controller && !referSameObject r ref) then none
    else some { controlled with OwnerReferences := upsertOwnerRef ref controlled.OwnerReferences }

def libs : Libs :=
  { parse := parse, namedSections := namedSections, render := render,
    renderNamed := renderNamed, SetControllerReference := SetControllerReference }

end Plain

/-! ## Sample inputs -/

namespace Sample

/-- A cluster `rabbit` in namespace `prod` with three replicas and nothing else set. -/
def cluster : RabbitmqCluster :=
  { Name := "rabbit", Namespace := "prod", UID := "c0ffee", Labels := [], Annotations := [],
    OwnerReferences := [],
    Spec :=
      { Replicas := some 3, TLSEnabled := false, MutualTLSEnabled := false,
        DisableNonTLSListeners := false, AdditionalPlugins := [], MemoryLimit := none,
        Rabbitmq := { AdditionalConfig := "", AdvancedConfig := "", EnvConfig := "" } } }

/-- The ConfigMap of `cluster` as `Build` returns it: named, without data. -/
def configMap : ConfigMap :=
  { Name := "rabbit-server-conf", Namespace := "prod", UID := "", Labels := [],
    Annotations := [], OwnerReferences := [], Data := [] }

/-- A ConfigMap of `cluster` that still holds an advanced configuration and an environment
file from an earlier spec. -/
def staleConfigMap : ConfigMap :=
  { Name := "rabbit-server-conf", Namespace := "prod", UID := "", Labels := [],
    Annotations := [], OwnerReferences := [],
    Data := [("advanced.config", "[]."), ("rabbitmq-env.conf", "USE_LONGNAME=true")] }

/-- The cluster with an `additionalConfig` line that has no key/value delimiter. -/
def brokenCluster : RabbitmqCluster :=
  { cluster with
    Spec := { cluster.Spec with
      Rabbitmq :=
        { AdditionalConfig := "vm_memory_high_watermark.relative 0.6", AdvancedConfig := "",
          EnvConfig := "" } } }

/-- The cluster with TLS enabled. -/
def tlsCluster : RabbitmqCluster := cluster.withTLSEnabled

/-- A cluster without TLS whose `additionalConfig` spells out the TLS block by hand: the
lines of the TLS template and the two plain ports. -/
def handWrittenTLSCluster : RabbitmqCluster :=
  { cluster with
    Spec := { cluster.Spec with
      Rabbitmq :=
        { AdditionalConfig :=
            defaultTLSConf ++ "management.tcp.port = 15672\nprometheus.tcp.port = 15692",
          AdvancedConfig := "", EnvConfig := "" } } }

/-- A cluster without TLS whose `additionalConfig` is the TLS template, without the two
plain ports. -/
def templateTLSCluster : RabbitmqCluster :=
  { cluster with
    Spec := { cluster.Spec with
      Rabbitmq :=
        { AdditionalConfig := defaultTLSConf, AdvancedConfig := "", EnvConfig := "" } } }

/-- A ConfigMap whose `operatorDefaults.conf` has a cluster name in the unnamed section and
a section `[federation]` that holds a key of the peer list. -/
def sectionedConfigMap : ConfigMap :=
  { Name := "rabbit-server-conf", Namespace := "prod", UID := "", Labels := [],
    Annotations := [], OwnerReferences := [],
    Data :=
      [("operatorDefaults.conf",
        "cluster_name = rabbit\n[federation]\ncluster_formation.classic_config.nodes.1 = rabbit@rabbit-server-0.rabbit-headless.prod\n")] }

end Sample

/-! ## Arithmetic of `removeHeadroom` -/

theorem tdiv_five_bounds (x : Int) :
    (0 ≤ x → 5 * x.tdiv 5 ≤ x ∧ x < 5 * x.tdiv 5 + 5) ∧
      (x < 0 → x ≤ 5 * x.tdiv 5 ∧ 5 * x.tdiv 5 - 5 < x) := by
  constructor
  · intro h
    rw [Int.tdiv_eq_ediv h (by decide)]
    omega
  · intro h
    have h2 : (-x).tdiv 5 = (-x) / 5 := Int.tdiv_eq_ediv (by omega) (by decide)
    rw [Int.neg_tdiv] at h2
    omega

theorem wrapInt64_of_range (x : Int) (hlo : -9223372036854775808 ≤ x)
    (hhi : x < 9223372036854775808) : wrapInt64 x = x := by
  unfold wrapInt64
  norm_num
  omega

/-! ## The data map -/

theorem Data.get_delete (m : Data) (k k' : String) :
    Data.get (Data.delete m k) k' = if k' = k then none else Data.get m k' := by
  induction m with
  | nil => simp [Data.get, Data.delete]
  | cons kv m ih =>
    obtain ⟨a, b⟩ := kv
    simp only [Data.get, Data.delete] at ih ⊢
    by_cases hak : a = k
    · subst hak
      by_cases hk : k' = a
      · subst hk
        simpa [List.filter_cons] using ih
      · have : (k' == a) = false := by simpa using hk
        simp [List.filter_cons, List.lookup_cons, this, hk] at ih ⊢
        exact ih
    · have hne : (a != k) = true := by simpa using hak
      rw [List.filter_cons]
      simp only [hne, if_true, List.lookup_cons]
      by_cases hk : k' = a
      · subst hk
        simp [hak]
      · have : (k' == a) = false := by simpa using hk
        simp only [this]
        exact ih

theorem Data.get_set (m : Data) (k v k' : String) :
    Data.get (Data.set m k v) k' = if k' = k then some v else Data.get m k' := by
  by_cases hk : k' = k
  · subst hk
    simp [Data.get, Data.set, List.lookup_cons]
  · have h1 : (k' == k) = false := by simpa using hk
    have h2 := Data.get_delete m k k'
    simp only [hk, if_false] at h2 ⊢
    simpa [Data.get, Data.set, List.lookup_cons, h1] using h2

theorem Data.get_updateProperty (m : Data) (k v k' : String) :
    Data.get (updateProperty m k v) k' =
      if k' = k then (if v = "" then none else some v) else Data.get m k' := by
  unfold updateProperty
  split
  · rw [Data.get_delete]
  · rw [Data.get_set]

theorem Data.mem_of_get (m : Data) (k v : String) (h : Data.get m k = some v) : (k, v) ∈ m := by
  induction m with
  | nil => simp [Data.get] at h
  | cons x m ih =>
    obtain ⟨a, b⟩ := x
    simp only [Data.get, List.lookup_cons] at h
    by_cases hx : k = a
    · subst hx
      simp at h
      simp [h]
    · have : (k == a) = false := by simpa using hx
      simp only [this] at h
      exact List.mem_cons_of_mem _ (ih h)

theorem Data.equal_iff (a b : Data) :
    Data.equal a b = true ↔ ∀ k, Data.get a k = Data.get b k := by
  constructor
  · intro h k
    simp only [Data.equal, Bool.and_eq_true, List.all_eq_true, beq_iff_eq] at h
    cases ha : Data.get a k with
    | some v => exact (h.1 (k, v) (Data.mem_of_get a k v ha)).trans ha |>.symm
    | none =>
      cases hb : Data.get b k with
      | none => rfl
      | some w => exact ((h.2 (k, w) (Data.mem_of_get b k w hb)).trans hb).symm.trans ha |>.symm
  · intro h
    simp only [Data.equal, Bool.and_eq_true, List.all_eq_true, beq_iff_eq]
    exact ⟨fun kv _ => (h kv.1).symm, fun kv _ => h kv.1⟩

/-! ## What a call of `Update` does -/

/-- A call of `Update` that returns no error went through every step, and its result is
made up of the results of the steps. -/
theorem Update_of_ok (L : Libs) (b : ServerConfigMapBuilder) (cm : ConfigMap)
    (h : (Update L b cm).err = false) :
    ∃ opc uc uc2 m p u,
      operatorConfiguration L b.Instance = some opc ∧
      userConfiguration L b.Instance = some uc ∧
      Append L uc b.Instance.Spec.Rabbitmq.AdditionalConfig = some uc2 ∧
      L.SetControllerReference b.Instance.toObjectMeta cm.toObjectMeta = some m ∧
      removeConfigNotRequiringNodeRestart L cm = some p ∧
      removeConfigNotRequiringNodeRestart L
        { toObjectMeta := m, Data := renderedData L b.Instance opc uc2 cm.Data } = some u ∧
      Update L b cm =
        { err := false,
          object := { toObjectMeta := m, Data := renderedData L b.Instance opc uc2 cm.Data },
          builder :=
            { Instance := b.Instance,
              UpdateRequiresStsRestart := b.UpdateRequiresStsRestart && !DeepEqual p u } } := by
  unfold Update at h ⊢
  cases h1 : operatorConfiguration L b.Instance with
  | none => simp [h1] at h
  | some opc =>
  cases h2 : userConfiguration L b.Instance with
  | none => simp [h1, h2] at h
  | some uc =>
  cases h3 : Append L uc b.Instance.Spec.Rabbitmq.AdditionalConfig with
  | none => simp [h1, h2, h3] at h
  | some uc2 =>
  cases h4 : L.SetControllerReference b.Instance.toObjectMeta cm.toObjectMeta with
  | none => simp [h1, h2, h3, h4] at h
  | some m =>
  cases h5 : removeConfigNotRequiringNodeRestart L cm with
  | none => simp [h1, h2, h3, h4, h5] at h
  | some p =>
  cases h6 : removeConfigNotRequiringNodeRestart L
      { toObjectMeta := m, Data := renderedData L b.Instance opc uc2 cm.Data } with
  | none =>
    simp only [renderedData] at h6
    simp [h1, h2, h3, h4, h5, h6] at h
  | some u =>
    refine ⟨opc, uc, uc2, m, p, u, ?_, ?_, ?_, ?_, ?_, ?_, ?_⟩
    iterate 6 (first | rfl | assumption)
    simp only [renderedData] at h6
    simp only [h1, h2, h3, h4, h5, h6, renderedData]
    cases hd : DeepEqual p u <;> cases hb : b.UpdateRequiresStsRestart <;> simp [hd, hb]
    all_goals (cases b; simp_all)

/-! ## Sections -/

theorem Section.NewKey_of_ne (s : Section) (name val : String) (h : name ≠ "") :
    Section.NewKey s name val = some (Section.put s name val) := by
  simp [Section.NewKey, h]

theorem Section.NewKey_some (s t : Section) (name val : String)
    (h : Section.NewKey s name val = some t) : t = Section.put s name val := by
  unfold Section.NewKey at h
  split at h
  · simp at h
  · simpa using h.symm

theorem Section.keys_put (s : Section) (k v : String) :
    Section.KeyStrings (Section.put s k v) =
      if k ∈ Section.KeyStrings s then Section.KeyStrings s else Section.KeyStrings s ++ [k] := by
  unfold Section.put Section.KeyStrings
  by_cases h : s.any (fun kv => kv.1 == k) = true
  · have hmem : k ∈ s.map Prod.fst := by
      simp only [List.any_eq_true, beq_iff_eq] at h
      obtain ⟨x, hx, hk⟩ := h
      exact List.mem_map.mpr ⟨x, hx, hk⟩
    simp only [h, if_true, hmem, List.map_map]
    apply List.map_congr_left
    intro x _
    by_cases hx : x.1 = k <;> simp [hx]
  · have hmem : k ∉ s.map Prod.fst := by
      intro hk
      apply h
      obtain ⟨x, hx, hk⟩ := List.mem_map.mp hk
      simp only [List.any_eq_true, beq_iff_eq]
      exact ⟨x, hx, hk⟩
    simp [h, hmem]

theorem Section.nodup_put (s : Section) (k v : String) (h : (Section.KeyStrings s).Nodup) :
    (Section.KeyStrings (Section.put s k v)).Nodup := by
  rw [Section.keys_put]
  split
  · exact h
  · next hk =>
    exact List.Nodup.append h (List.nodup_singleton k) (by simpa using hk)

theorem Section.nodup_assign (kvs : List (String × String)) :
    ∀ (s t : Section), (Section.KeyStrings s).Nodup → Section.assign s kvs = some t →
      (Section.KeyStrings t).Nodup := by
  induction kvs with
  | nil =>
    intro s t hs h
    simp [Section.assign] at h
    subst h
    exact hs
  | cons kv kvs ih =>
    intro s t hs h
    simp only [Section.assign, List.foldlM_cons] at h
    cases h1 : Section.NewKey s kv.1 kv.2 with
    | none => simp [h1] at h
    | some s1 =>
      rw [h1] at h
      have := Section.NewKey_some _ _ _ _ h1
      subst this
      exact ih _ t (Section.nodup_put s kv.1 kv.2 hs) h

theorem Load_nodup (L : Libs) (source : String) (t : Section) (h : Load L source = some t) :
    (Section.KeyStrings t).Nodup := by
  unfold Load at h
  cases hp : L.parse source with
  | none => simp [hp] at h
  | some kvs =>
    rw [hp] at h
    exact Section.nodup_assign kvs [] t (by simp [Section.KeyStrings]) h

theorem LoadFile_eq_some (L : Libs) (source : String) (f : File)
    (h : LoadFile L source = some f) :
    Load L source = some f.Default ∧ f.Named = L.namedSections source := by
  unfold LoadFile at h
  cases hl : Load L source with
  | none => simp [hl] at h
  | some sec =>
    rw [hl] at h
    simp only [Option.map_some', Option.some.injEq] at h
    subst h
    exact ⟨rfl, rfl⟩

theorem LoadFile_nodup (L : Libs) (source : String) (f : File)
    (h : LoadFile L source = some f) : (Section.KeyStrings f.Default).Nodup :=
  Load_nodup L source f.Default (LoadFile_eq_some L source f h).1

/-! ## Removing the peer entries -/

theorem eraseP_key_eq_filter (s : Section) (k : String) (h : (Section.KeyStrings s).Nodup) :
    Section.DeleteKey s k = s.filter (fun kv => kv.1 != k) := by
  induction s with
  | nil => simp [Section.DeleteKey]
  | cons x s ih =>
    simp only [Section.KeyStrings, List.map_cons, List.nodup_cons] at h
    by_cases hx : x.1 = k
    · have hnot : ∀ y ∈ s, (y.1 != k) = true := by
        intro y hy
        have : y.1 ≠ x.1 := fun e => h.1 (e ▸ List.mem_map_of_mem Prod.fst hy)
        simpa [← hx] using this
      simp only [Section.DeleteKey, List.eraseP_cons, hx, beq_self_eq_true, if_true,
        List.filter_cons, bne_self_eq_false]
      exact (List.filter_eq_self.mpr hnot).symm
    · have hb : (x.1 == k) = false := by simpa using hx
      have hn : (x.1 != k) = true := by simpa using hx
      simp only [Section.DeleteKey, List.eraseP_cons, hb, List.filter_cons, hn, if_true]
      simp only [Section.DeleteKey] at ih
      simp [ih h.2]

theorem foldl_delete_eq_filter (ks : List String) :
    ∀ s : Section, (Section.KeyStrings s).Nodup →
      ks.foldl
          (fun sec key => if HasPrefix key nodesPrefix then Section.DeleteKey sec key else sec) s =
        s.filter (fun kv => !(decide (kv.1 ∈ ks) && HasPrefix kv.1 nodesPrefix)) := by
  induction ks with
  | nil => intro s _; simp
  | cons k ks ih =>
    intro s hs
    simp only [List.foldl_cons]
    by_cases hk : HasPrefix k nodesPrefix = true
    · simp only [hk, if_true]
      rw [eraseP_key_eq_filter s k hs, ih]
      · rw [List.filter_filter]
        apply List.filter_congr
        intro x _
        by_cases hx : x.1 = k
        · simp [hx, hk]
        · simp [hx]
      · rw [← eraseP_key_eq_filter s k hs]
        exact (List.eraseP_sublist s |>.map Prod.fst).nodup hs
    · rw [if_neg hk, ih s hs]
      apply List.filter_congr
      intro x _
      by_cases hx : x.1 = k
      · have : HasPrefix x.1 nodesPrefix = false := by simpa [hx] using hk
        simp [this]
      · simp [hx]

theorem deleteNodeKeys_eq_filter (s : Section) (h : (Section.KeyStrings s).Nodup) :
    deleteNodeKeys s = s.filter keepsEntry := by
  unfold deleteNodeKeys
  rw [foldl_delete_eq_filter _ s h]
  apply List.filter_congr
  intro x hx
  have : x.1 ∈ Section.KeyStrings s := List.mem_map_of_mem Prod.fst hx
  simp [keepsEntry, this]

theorem filter_replace_nodes_key (s : Section) (k v : String)
    (hk : HasPrefix k nodesPrefix = true) :
    (s.map (fun kv => if kv.1 = k then (k, v) else kv)).filter keepsEntry =
      s.filter keepsEntry := by
  induction s with
  | nil => simp
  | cons x s ih =>
    simp only [List.map_cons, List.filter_cons]
    by_cases hx : x.1 = k
    · simp [hx, keepsEntry, hk, ih]
    · simp [hx, ih]

theorem filter_replace_other_key (s : Section) (k v : String)
    (hk : HasPrefix k nodesPrefix = false) :
    (s.map (fun kv => if kv.1 = k then (k, v) else kv)).filter keepsEntry =
      (s.filter keepsEntry).map (fun kv => if kv.1 = k then (k, v) else kv) := by
  induction s with
  | nil => simp
  | cons x s ih =>
    simp only [List.map_cons, List.filter_cons]
    by_cases hx : x.1 = k
    · simp [hx, keepsEntry, hk, ih]
    · by_cases hp : keepsEntry x = true
      · simp [hx, hp, ih]
      · simp [hx, hp, ih]

theorem filter_put_nodes_key (s : Section) (k v : String) (hk : HasPrefix k nodesPrefix = true) :
    (Section.put s k v).filter keepsEntry = s.filter keepsEntry := by
  unfold Section.put
  split
  · exact filter_replace_nodes_key s k v hk
  · simp [List.filter_append, List.filter_cons, keepsEntry, hk]

theorem filter_put_other_key (s : Section) (k v : String)
    (hk : HasPrefix k nodesPrefix = false) :
    (Section.put s k v).filter keepsEntry = Section.put (s.filter keepsEntry) k v := by
  have hany : (s.filter keepsEntry).any (fun kv => kv.1 == k) = s.any (fun kv => kv.1 == k) := by
    induction s with
    | nil => simp
    | cons x s ih =>
      by_cases hx : x.1 = k
      · simp [List.filter_cons, keepsEntry, hx, hk]
      · have hb : (x.1 == k) = false := by simpa using hx
        simp only [List.filter_cons, List.any_cons, hb, Bool.false_or]
        split
        · simpa [hb] using ih
        · exact ih
  unfold Section.put
  rw [hany]
  split
  · exact filter_replace_other_key s k v hk
  · simp [List.filter_append, List.filter_cons, keepsEntry, hk]

/-! ## The operator's document -/

theorem HasPrefix_append (p x : String) : HasPrefix (p ++ x) p = true := by
  simp [HasPrefix, String.data_append, List.isPrefixOf_iff_prefix]

theorem append_ne_empty (p x : String) (h : p ≠ "") : p ++ x ≠ "" := by
  intro e
  have hd := congrArg String.data e
  simp only [String.data_append, List.append_eq_nil] at hd
  exact h (String.ext hd.1)

theorem nodeEntry_key_ne (inst : RabbitmqCluster) (i : Nat) : (nodeEntry inst i).1 ≠ "" :=
  append_ne_empty _ _ (by decide)

theorem HasPrefix_nodeEntry (inst : RabbitmqCluster) (i : Nat) :
    HasPrefix (nodeEntry inst i).1 nodesPrefix = true :=
  HasPrefix_append _ _

theorem foldlM_nodes (inst : RabbitmqCluster) (l : List Nat) :
    ∀ s : Section,
      l.foldlM (fun sec i => Section.NewKey sec (nodeEntry inst i).1 (nodeEntry inst i).2) s =
        some (l.foldl (fun sec i => Section.put sec (nodeEntry inst i).1 (nodeEntry inst i).2) s) := by
  induction l with
  | nil => intro s; rfl
  | cons i l ih =>
    intro s
    rw [List.foldlM_cons, Section.NewKey_of_ne _ _ _ (nodeEntry_key_ne inst i)]
    exact ih _

theorem operatorConfiguration_eq (L : Libs) (inst : RabbitmqCluster) :
    operatorConfiguration L inst = (Load L defaultRabbitmqConf).map (operatorSection inst) := by
  unfold operatorConfiguration operatorSection
  cases Load L defaultRabbitmqConf with
  | none => rfl
  | some base =>
    simp only [Option.bind_eq_bind, Option.some_bind, Option.map_some', foldlM_nodes]
    exact Section.NewKey_of_ne _ _ _ (by decide)

theorem filter_foldl_nodes (inst : RabbitmqCluster) (l : List Nat) :
    ∀ s : Section,
      (l.foldl (fun sec i => Section.put sec (nodeEntry inst i).1 (nodeEntry inst i).2) s).filter
          keepsEntry = s.filter keepsEntry := by
  induction l with
  | nil => intro s; rfl
  | cons i l ih =>
    intro s
    rw [List.foldl_cons, ih, filter_put_nodes_key _ _ _ (HasPrefix_nodeEntry inst i)]

theorem nodup_foldl_nodes (inst : RabbitmqCluster) (l : List Nat) :
    ∀ s : Section, (Section.KeyStrings s).Nodup →
      (Section.KeyStrings
        (l.foldl (fun sec i => Section.put sec (nodeEntry inst i).1 (nodeEntry inst i).2)
          s)).Nodup := by
  induction l with
  | nil => intro s hs; exact hs
  | cons i l ih =>
    intro s hs
    rw [List.foldl_cons]
    exact ih _ (Section.nodup_put _ _ _ hs)

theorem filter_operatorSection (inst : RabbitmqCluster) (base : Section) :
    (operatorSection inst base).filter keepsEntry =
      Section.put (base.filter keepsEntry) "cluster_name" inst.Name := by
  unfold operatorSection
  rw [filter_put_other_key _ _ _ (by decide), filter_foldl_nodes]

theorem nodup_operatorSection (inst : RabbitmqCluster) (base : Section)
    (h : (Section.KeyStrings base).Nodup) :
    (Section.KeyStrings (operatorSection inst base)).Nodup :=
  Section.nodup_put _ _ _ (nodup_foldl_nodes inst _ base h)

/-- Without its peer entries the operator's document does not depend on the replica count. -/
theorem deleteNodeKeys_operatorSection (inst : RabbitmqCluster) (base : Section)
    (h : (Section.KeyStrings base).Nodup) (replicas : Option Int) :
    deleteNodeKeys (operatorSection (inst.withReplicas replicas) base) =
      deleteNodeKeys (operatorSection inst base) := by
  rw [deleteNodeKeys_eq_filter _ (nodup_operatorSection _ base h),
    deleteNodeKeys_eq_filter _ (nodup_operatorSection _ base h),
    filter_operatorSection, filter_operatorSection]
  rfl

/-! ## The steps of `Update`, put together -/

theorem Update_of_steps (L : Libs) (b : ServerConfigMapBuilder) (cm : ConfigMap)
    (opc uc uc2 : Section) (m : ObjectMeta) (p u : ConfigMap)
    (h1 : operatorConfiguration L b.Instance = some opc)
    (h2 : userConfiguration L b.Instance = some uc)
    (h3 : Append L uc b.Instance.Spec.Rabbitmq.AdditionalConfig = some uc2)
    (h4 : L.SetControllerReference b.Instance.toObjectMeta cm.toObjectMeta = some m)
    (h5 : removeConfigNotRequiringNodeRestart L cm = some p)
    (h6 : removeConfigNotRequiringNodeRestart L
        { toObjectMeta := m, Data := renderedData L b.Instance opc uc2 cm.Data } = some u) :
    Update L b cm =
      { err := false,
        object := { toObjectMeta := m, Data := renderedData L b.Instance opc uc2 cm.Data },
        builder :=
          { Instance := b.Instance,
            UpdateRequiresStsRestart := b.UpdateRequiresStsRestart && !DeepEqual p u } } := by
  unfold Update
  simp only [renderedData] at h6
  simp only [h1, h2, h3, h4, h5, h6, renderedData]
  cases hd : DeepEqual p u <;> cases hb : b.UpdateRequiresStsRestart <;> simp [hd, hb]
  all_goals (cases b; simp_all)

theorem Data.get_renderedData (L : Libs) (inst : RabbitmqCluster) (oc uc : Section) (d : Data)
    (k : String) :
    Data.get (renderedData L inst oc uc d) k =
      if k = "rabbitmq-env.conf" then
        (if inst.Spec.Rabbitmq.EnvConfig = "" then none else some inst.Spec.Rabbitmq.EnvConfig)
      else if k = "advanced.config" then
        (if inst.Spec.Rabbitmq.AdvancedConfig = "" then none
          else some inst.Spec.Rabbitmq.AdvancedConfig)
      else if k = "userDefinedConfiguration.conf" then some (L.render uc)
      else if k = operatorDefaults then some (L.render oc)
      else Data.get d k := by
  simp only [renderedData, Data.get_updateProperty, Data.get_set]

theorem Data.index_renderedData (L : Libs) (inst : RabbitmqCluster) (oc uc : Section)
    (d : Data) : Data.index (renderedData L inst oc uc d) operatorDefaults = L.render oc := by
  have h1 : operatorDefaults ≠ "rabbitmq-env.conf" := by decide
  have h2 : operatorDefaults ≠ "advanced.config" := by decide
  have h3 : operatorDefaults ≠ "userDefinedConfiguration.conf" := by decide
  simp [Data.index, Data.get_renderedData, h1, h2, h3]

theorem removeConfig_eq (L : Libs) (cm : ConfigMap) :
    removeConfigNotRequiringNodeRestart L cm =
      if Data.index cm.Data operatorDefaults = "" then some cm
      else (LoadFile L (Data.index cm.Data operatorDefaults)).map (fun conf =>
        { cm with
          Data := Data.set cm.Data operatorDefaults
            (WriteTo L { Default := deleteNodeKeys conf.Default, Named := conf.Named }) }) := by
  unfold removeConfigNotRequiringNodeRestart
  simp only
  split
  · rfl
  · cases LoadFile L (Data.index cm.Data operatorDefaults) <;> rfl

theorem DeepEqual_iff (a b : ConfigMap) :
    DeepEqual a b = true ↔
      a.toObjectMeta = b.toObjectMeta ∧ ∀ k, Data.get a.Data k = Data.get b.Data k := by
  simp [DeepEqual, Data.equal_iff]

/-- On two objects with the same metadata and the same data entries the function fails on
both or succeeds on both, with results that `DeepEqual` takes for equal. -/
theorem removeConfig_congr (L : Libs) (a b : ConfigMap)
    (hm : a.toObjectMeta = b.toObjectMeta) (hd : ∀ k, Data.get a.Data k = Data.get b.Data k)
    (pa : ConfigMap) (h : removeConfigNotRequiringNodeRestart L a = some pa) :
    ∃ pb, removeConfigNotRequiringNodeRestart L b = some pb ∧ DeepEqual pa pb = true := by
  have hi : Data.index a.Data operatorDefaults = Data.index b.Data operatorDefaults := by
    simp [Data.index, hd]
  rw [removeConfig_eq] at h ⊢
  rw [← hi]
  split at h
  · next h0 =>
    rw [if_pos h0]
    refine ⟨b, rfl, ?_⟩
    simp only [Option.some.injEq] at h
    subst h
    exact (DeepEqual_iff _ _).mpr ⟨hm, hd⟩
  · next h0 =>
    rw [if_neg h0]
    cases hl : LoadFile L (Data.index a.Data operatorDefaults) with
    | none => simp [hl] at h
    | some conf =>
      rw [hl] at h
      simp only [Option.map_some', Option.some.injEq] at h ⊢
      subst h
      refine ⟨_, rfl, ?_⟩
      refine (DeepEqual_iff _ _).mpr ⟨hm, ?_⟩
      intro k
      simp only [Data.get_set, hd]

/-! ## Decimal numerals -/

theorem decimalValue_append (l : List Char) (c : Char) :
    decimalValue (l ++ [c]) = decimalValue l * 10 + (c.toNat - 48) := by
  simp [decimalValue, List.foldl_append]

theorem digitChar_value (k : Nat) (h : k < 10) : (Nat.digitChar k).toNat - 48 = k := by
  interval_cases k <;> rfl

theorem toDigitsCore_value (fuel : Nat) :
    ∀ (n : Nat) (ds : List Char), n < fuel →
      ∃ l, Nat.toDigitsCore 10 fuel n ds = l ++ ds ∧ decimalValue l = n := by
  induction fuel with
  | zero => intro n ds h; omega
  | succ fuel ih =>
    intro n ds h
    unfold Nat.toDigitsCore
    simp only
    split
    · next h0 =>
      refine ⟨[Nat.digitChar (n % 10)], rfl, ?_⟩
      have := digitChar_value (n % 10) (Nat.mod_lt _ (by decide))
      simp only [decimalValue, List.foldl_cons, List.foldl_nil, Nat.zero_mul, Nat.zero_add, this]
      omega
    · next h0 =>
      obtain ⟨l, hl, hv⟩ := ih (n / 10) (Nat.digitChar (n % 10) :: ds) (by omega)
      refine ⟨l ++ [Nat.digitChar (n % 10)], by simp [hl], ?_⟩
      rw [decimalValue_append, hv, digitChar_value (n % 10) (Nat.mod_lt _ (by decide))]
      omega

theorem decimalValue_toString (n : Nat) : decimalValue (toString n).data = n := by
  obtain ⟨l, hl, hv⟩ := toDigitsCore_value (n + 1) n [] (by omega)
  have : (toString n).data = l := by
    show (Nat.repr n).data = l
    simp [Nat.repr, Nat.toDigits, hl, List.asString]
  rw [this, hv]

theorem toString_nat_inj (a b : Nat) (h : toString a = toString b) : a = b := by
  have := congrArg (fun s => decimalValue s.data) h
  simpa [decimalValue_toString] using this

theorem nodeEntry_key_inj (inst : RabbitmqCluster) (i j : Nat)
    (h : (nodeEntry inst i).1 = (nodeEntry inst j).1) : i = j := by
  simp only [nodeEntry] at h
  have hd := congrArg String.data h
  simp only [String.data_append, List.append_cancel_left_eq] at hd
  have := toString_nat_inj _ _ (String.ext hd)
  omega

/-! ## The operator's document over the template's six entries -/

theorem Section.put_of_not_mem (s : Section) (k v : String) (h : k ∉ Section.KeyStrings s) :
    Section.put s k v = s ++ [(k, v)] := by
  unfold Section.put
  rw [if_neg]
  intro hany
  simp only [List.any_eq_true, beq_iff_eq] at hany
  obtain ⟨x, hx, hk⟩ := hany
  exact h (List.mem_map.mpr ⟨x, hx, hk⟩)

theorem foldl_nodes_range (inst : RabbitmqCluster) (base : Section)
    (hbase : ∀ k ∈ Section.KeyStrings base, HasPrefix k nodesPrefix = false) (n : Nat) :
    (List.range n).foldl
        (fun sec i => Section.put sec (nodeEntry inst i).1 (nodeEntry inst i).2) base =
      base ++ (List.range n).map (nodeEntry inst) := by
  induction n with
  | zero => simp
  | succ n ih =>
    rw [List.range_succ, List.foldl_append, List.foldl_cons, List.foldl_nil, ih,
      Section.put_of_not_mem, List.map_append, List.map_cons, List.map_nil, List.append_assoc]
    intro hmem
    simp only [Section.KeyStrings, List.map_append, List.map_map, List.mem_append,
      List.mem_map, List.mem_range, Function.comp] at hmem
    rcases hmem with ⟨x, hx, hk⟩ | ⟨i, hi, hk⟩
    · have := hbase x.1 (List.mem_map_of_mem Prod.fst hx)
      rw [hk, HasPrefix_nodeEntry] at this
      exact Bool.noConfusion this
    · have := nodeEntry_key_inj inst i n hk
      omega

theorem operatorSection_default (inst : RabbitmqCluster) :
    operatorSection inst defaultRabbitmqEntries =
      defaultRabbitmqEntries ++
        (List.range (Int32PtrDerefOr inst.Spec.Replicas 1).toNat).map (nodeEntry inst) ++
        [("cluster_name", inst.Name)] := by
  unfold operatorSection
  rw [foldl_nodes_range inst defaultRabbitmqEntries (by decide), Section.put_of_not_mem]
  intro hmem
  simp only [Section.KeyStrings, List.map_append, List.map_map, List.mem_append,
    List.mem_map, List.mem_range, Function.comp] at hmem
  rcases hmem with h | ⟨i, _, hk⟩
  · revert h
    decide
  · have := HasPrefix_nodeEntry inst i
    rw [hk] at this
    revert this
    decide

theorem Load_defaultRabbitmqConf (L : Libs)
    (hbase : L.parse defaultRabbitmqConf = some defaultRabbitmqEntries) :
    Load L defaultRabbitmqConf = some defaultRabbitmqEntries := by
  unfold Load
  rw [hbase]
  decide

theorem filter_nodes_operatorSection (inst : RabbitmqCluster) :
    (operatorSection inst defaultRabbitmqEntries).filter
        (fun kv => HasPrefix kv.1 nodesPrefix) =
      (List.range (Int32PtrDerefOr inst.Spec.Replicas 1).toNat).map (nodeEntry inst) := by
  rw [operatorSection_default, List.filter_append, List.filter_append]
  have h1 : defaultRabbitmqEntries.filter (fun kv => HasPrefix kv.1 nodesPrefix) = [] := by
    decide
  have h2 : [("cluster_name", inst.Name)].filter (fun kv => HasPrefix kv.1 nodesPrefix) = [] := by
    have : HasPrefix "cluster_name" nodesPrefix = false := by decide
    simp [List.filter_cons, this]
  rw [h1, h2, List.nil_append, List.append_nil, List.filter_eq_self]
  intro kv hkv
  obtain ⟨i, _, rfl⟩ := List.mem_map.mp hkv
  exact HasPrefix_nodeEntry inst i

/-! ## The user's document -/

theorem lookup_cons_ite (a b k' : String) (s : List (String × String)) :
    List.lookup k' ((a, b) :: s) = if k' = a then some b else List.lookup k' s := by
  rw [List.lookup_cons]
  by_cases h : k' = a
  · simp [h]
  · have : (k' == a) = false := by simpa using h
    simp [h, this]

theorem lookup_replace (s : Section) (k v k' : String) :
    List.lookup k' (s.map (fun kv => if kv.1 = k then (k, v) else kv)) =
      if k' = k then (if s.any (fun kv => kv.1 == k) then some v else none)
      else List.lookup k' s := by
  induction s with
  | nil => simp
  | cons x s ih =>
    obtain ⟨a, b⟩ := x
    simp only [List.map_cons, List.any_cons]
    by_cases hak : a = k
    · subst hak
      simp only [if_true, lookup_cons_ite, ih]
      by_cases hk : k' = a
      · simp [hk]
      · simp [hk]
    · have h2 : (a == k) = false := by simpa using hak
      simp only [hak, if_false, lookup_cons_ite, ih, h2, Bool.false_or]
      by_cases hk : k' = k
      · have : ¬ k = a := fun e => hak e.symm
        simp [hk, this]
      · simp [hk]

theorem Section.value_put (s : Section) (k v k' : String) :
    Section.value (Section.put s k v) k' =
      if k' = k then some v else Section.value s k' := by
  unfold Section.put Section.value
  by_cases hany : s.any (fun kv => kv.1 == k) = true
  · simp only [hany, if_true, lookup_replace]
  · rw [if_neg hany, List.lookup_append]
    simp only [lookup_cons_ite, List.lookup_nil]
    by_cases hk : k' = k
    · subst hk
      have : List.lookup k' s = none := by
        rw [List.lookup_eq_none_iff]
        intro p hp
        simp only [List.any_eq_true, beq_iff_eq, not_exists, not_and] at hany
        simpa using fun e => hany p hp e.symm
      simp [this]
    · simp [hk]

theorem Section.putAll_append (s : Section) (a b : List (String × String)) :
    Section.putAll s (a ++ b) = Section.putAll (Section.putAll s a) b := by
  simp [Section.putAll, List.foldl_append]

theorem Section.value_putAll_of_not_mem (kvs : List (String × String)) (k : String)
    (h : k ∉ kvs.map Prod.fst) :
    ∀ s : Section, Section.value (Section.putAll s kvs) k = Section.value s k := by
  induction kvs with
  | nil => intro s; rfl
  | cons kv kvs ih =>
    intro s
    simp only [List.map_cons, List.mem_cons, not_or] at h
    show Section.value (Section.putAll (Section.put s kv.1 kv.2) kvs) k = _
    rw [ih h.2, Section.value_put, if_neg h.1]

theorem Section.assign_some (kvs : List (String × String)) :
    ∀ s t : Section, Section.assign s kvs = some t → t = Section.putAll s kvs := by
  induction kvs with
  | nil =>
    intro s t h
    simp [Section.assign] at h
    exact h.symm
  | cons kv kvs ih =>
    intro s t h
    simp only [Section.assign, List.foldlM_cons] at h
    cases h1 : Section.NewKey s kv.1 kv.2 with
    | none => simp [h1] at h
    | some s1 =>
      rw [h1] at h
      have := Section.NewKey_some _ _ _ _ h1
      subst this
      exact ih _ t h

theorem Append_some (L : Libs) (s t : Section) (source : String)
    (h : Append L s source = some t) :
    ∃ kvs, L.parse source = some kvs ∧ t = Section.putAll s kvs := by
  unfold Append at h
  cases hp : L.parse source with
  | none => simp [hp] at h
  | some kvs =>
    rw [hp] at h
    exact ⟨kvs, rfl, Section.assign_some kvs s t h⟩

theorem tlsConfiguration_eq (L : Libs) (inst : RabbitmqCluster) (s : Section) :
    tlsConfiguration L inst s =
      if inst.Spec.TLSEnabled then
        (Append L s defaultTLSConf).map (fun sec =>
          Section.putAll sec (listenerEntries inst ++ pluginTLSEntries inst))
      else some s := by
  unfold tlsConfiguration listenerEntries pluginTLSEntries
  cases inst.Spec.TLSEnabled with
  | false => rfl
  | true =>
    cases Append L s defaultTLSConf with
    | none => rfl
    | some sec =>
      cases inst.Spec.DisableNonTLSListeners <;>
        cases inst.AdditionalPluginEnabled "rabbitmq_mqtt" <;>
        cases inst.AdditionalPluginEnabled "rabbitmq_stomp" <;>
        simp [Section.NewKey, Section.putAll]

theorem mutualTLSConfiguration_eq (inst : RabbitmqCluster) (s : Section) :
    mutualTLSConfiguration inst s = some (Section.putAll s (mutualTLSEntries inst)) := by
  unfold mutualTLSConfiguration mutualTLSEntries
  cases inst.Spec.MutualTLSEnabled <;> cases inst.Spec.DisableNonTLSListeners <;>
    cases inst.AdditionalPluginEnabled "rabbitmq_web_mqtt" <;>
    cases inst.AdditionalPluginEnabled "rabbitmq_web_stomp" <;>
    simp only [Section.NewKey_of_ne, ne_eq, String.reduceEq, not_false_eq_true, if_true,
      Bool.false_eq_true, if_false, Option.bind_eq_bind, Option.some_bind, Option.pure_def,
      Section.putAll, List.foldl_cons, List.foldl_nil, List.foldl_append, List.append_nil,
      List.cons_append, List.nil_append]

theorem memoryConfiguration_eq (inst : RabbitmqCluster) (s : Section) :
    memoryConfiguration inst s = some (Section.putAll s (memoryEntries inst)) := by
  unfold memoryConfiguration memoryEntries
  cases inst.Spec.MemoryLimit <;> simp [Section.NewKey, Section.putAll]

theorem Append_defaultTLSConf (L : Libs)
    (htls : L.parse defaultTLSConf = some defaultTLSEntries) :
    Append L [] defaultTLSConf = some defaultTLSEntries := by
  unfold Append
  rw [htls]
  decide

theorem putAll_defaultTLSEntries_listeners (inst : RabbitmqCluster) :
    Section.putAll defaultTLSEntries (listenerEntries inst) =
      defaultTLSEntries ++ listenerEntries inst := by
  unfold listenerEntries
  cases inst.Spec.DisableNonTLSListeners <;> decide

/-- The user document before `additionalConfig`, when the ini library reads the TLS template
as its nine lines. -/
theorem userConfiguration_eq (L : Libs) (inst : RabbitmqCluster)
    (htls : L.parse defaultTLSConf = some defaultTLSEntries) :
    userConfiguration L inst =
      some (Section.putAll
        (if inst.Spec.TLSEnabled then defaultTLSEntries ++ listenerEntries inst else [])
        (laterEntries inst)) := by
  unfold userConfiguration laterEntries
  rw [tlsConfiguration_eq, Append_defaultTLSConf L htls]
  cases inst.Spec.TLSEnabled with
  | false =>
    simp [mutualTLSConfiguration_eq, memoryConfiguration_eq, Section.putAll_append]
  | true =>
    simp [mutualTLSConfiguration_eq, memoryConfiguration_eq, Section.putAll_append,
      putAll_defaultTLSEntries_listeners]

theorem pluginTLSEntries_keys (inst : RabbitmqCluster) :
    ∀ k ∈ (pluginTLSEntries inst).map Prod.fst, k ∈ laterKeys := by
  unfold pluginTLSEntries
  cases inst.Spec.DisableNonTLSListeners <;>
    cases inst.AdditionalPluginEnabled "rabbitmq_mqtt" <;>
    cases inst.AdditionalPluginEnabled "rabbitmq_stomp" <;>
    decide

theorem mutualTLSEntries_keys (inst : RabbitmqCluster) :
    ∀ k ∈ (mutualTLSEntries inst).map Prod.fst, k ∈ laterKeys := by
  unfold mutualTLSEntries
  cases inst.Spec.MutualTLSEnabled <;> cases inst.Spec.DisableNonTLSListeners <;>
    cases inst.AdditionalPluginEnabled "rabbitmq_web_mqtt" <;>
    cases inst.AdditionalPluginEnabled "rabbitmq_web_stomp" <;>
    decide

theorem memoryEntries_keys (inst : RabbitmqCluster) :
    ∀ k ∈ (memoryEntries inst).map Prod.fst, k ∈ laterKeys := by
  unfold memoryEntries
  cases inst.Spec.MemoryLimit with
  | none => decide
  | some limit =>
    intro k hk
    simp only [List.map_cons, List.map_nil, List.mem_singleton] at hk
    subst hk
    decide

theorem laterEntries_keys (inst : RabbitmqCluster) :
    ∀ k ∈ (laterEntries inst).map Prod.fst, k ∈ laterKeys := by
  intro k hk
  unfold laterEntries at hk
  simp only [List.map_append, List.mem_append] at hk
  rcases hk with (hk | hk) | hk
  · split at hk
    · exact pluginTLSEntries_keys inst k hk
    · simp at hk
  · exact mutualTLSEntries_keys inst k hk
  · exact memoryEntries_keys inst k hk

theorem tlsBlockKeys_not_later : ∀ k ∈ tlsBlockKeys, k ∉ laterKeys := by decide

/-- A key of the TLS listener block that `additionalConfig` does not set has, in the user
document, the value the TLS block gave it. -/
theorem userDocument_value (L : Libs) (inst : RabbitmqCluster)
    (htls : L.parse defaultTLSConf = some defaultTLSEntries) (uc uc2 : Section)
    (h2 : userConfiguration L inst = some uc)
    (h3 : Append L uc inst.Spec.Rabbitmq.AdditionalConfig = some uc2)
    (k : String) (hk : k ∈ tlsBlockKeys)
    (hadd : ∀ kvs, L.parse inst.Spec.Rabbitmq.AdditionalConfig = some kvs →
      k ∉ kvs.map Prod.fst) :
    Section.value uc2 k =
      Section.value
        (if inst.Spec.TLSEnabled then defaultTLSEntries ++ listenerEntries inst else []) k := by
  rw [userConfiguration_eq L inst htls] at h2
  simp only [Option.some.injEq] at h2
  obtain ⟨kvs, hp, huc2⟩ := Append_some L uc uc2 _ h3
  rw [huc2, Section.value_putAll_of_not_mem kvs k (hadd kvs hp), ← h2,
    Section.value_putAll_of_not_mem]
  intro hmem
  exact tlsBlockKeys_not_later k hk (laterEntries_keys inst k hmem)

/-- With TLS enabled the user document is another document than without, as soon as
`additionalConfig` leaves a key of the TLS template unset.  The ini library is taken to
read the TLS template as its nine lines. -/
theorem userDocument_withTLSEnabled_ne (L : Libs) (inst : RabbitmqCluster) (k : String)
    (hoff : inst.Spec.TLSEnabled = false)
    (htls : L.parse defaultTLSConf = some defaultTLSEntries)
    (hk : k ∈ defaultTLSEntries.map Prod.fst)
    (hadd : ∀ kvs, L.parse inst.Spec.Rabbitmq.AdditionalConfig = some kvs →
      k ∉ kvs.map Prod.fst)
    (u0 u1 : Section) (h0 : userDocument L inst = some u0)
    (h1 : userDocument L inst.withTLSEnabled = some u1) : u0 ≠ u1 := by
  unfold userDocument at h0 h1
  cases h2 : userConfiguration L inst with
  | none => simp [h2] at h0
  | some uc =>
  cases g2 : userConfiguration L inst.withTLSEnabled with
  | none => simp [g2] at h1
  | some uc' =>
    rw [h2] at h0
    rw [g2] at h1
    simp only [Option.some_bind] at h0 h1
    intro heq
    have hkb : k ∈ tlsBlockKeys := List.mem_append_left _ hk
    have v0 := userDocument_value L inst htls uc u0 h2 h0 k hkb hadd
    have v1 := userDocument_value L inst.withTLSEnabled htls uc' u1 g2 h1 k hkb hadd
    rw [hoff] at v0
    rw [← heq, v0] at v1
    have htrue : inst.withTLSEnabled.Spec.TLSEnabled = true := rfl
    simp only [htrue, if_true, Section.value, List.lookup_append] at v1
    have hs : (List.lookup k defaultTLSEntries).isSome = true := by
      rw [List.lookup_isSome_iff]
      obtain ⟨kv, hkv, rfl⟩ := List.mem_map.mp hk
      exact ⟨kv, hkv, by simp⟩
    cases hl : List.lookup k defaultTLSEntries with
    | none => rw [hl] at hs; exact Bool.noConfusion hs
    | some v => simp [hl] at v1

theorem Update_builder_or_ok (L : Libs) (b : ServerConfigMapBuilder) (cm : ConfigMap) :
    (Update L b cm).builder = b ∨ (Update L b cm).err = false := by
  cases he : (Update L b cm).err with
  | false => exact Or.inr rfl
  | true =>
    refine Or.inl ?_
    unfold Update at he ⊢
    cases h1 : operatorConfiguration L b.Instance with
    | none => simp [h1]
    | some opc =>
    cases h2 : userConfiguration L b.Instance with
    | none => simp [h1, h2]
    | some uc =>
    cases h3 : Append L uc b.Instance.Spec.Rabbitmq.AdditionalConfig with
    | none => simp [h1, h2, h3]
    | some uc2 =>
    cases h4 : L.SetControllerReference b.Instance.toObjectMeta cm.toObjectMeta with
    | none => simp [h1, h2, h3, h4]
    | some m =>
    cases h5 : removeConfigNotRequiringNodeRestart L cm with
    | none => simp [h1, h2, h3, h4, h5]
    | some p =>
    cases h6 : removeConfigNotRequiringNodeRestart L
        { toObjectMeta := m, Data := renderedData L b.Instance opc uc2 cm.Data } with
    | none =>
      simp only [renderedData] at h6
      simp [h1, h2, h3, h4, h5, h6]
    | some u =>
      simp only [renderedData] at h6
      simp only [h1, h2, h3, h4, h5, h6] at he
      split at he <;> simp at he

theorem Update_builder_of_err (L : Libs) (b : ServerConfigMapBuilder) (cm : ConfigMap)
    (h : (Update L b cm).err = true) : (Update L b cm).builder = b := by
  rcases Update_builder_or_ok L b cm with h1 | h1
  · exact h1
  · rw [h1] at h
    exact Bool.noConfusion h

theorem removeConfig_get (L : Libs) (a p : ConfigMap)
    (h : removeConfigNotRequiringNodeRestart L a = some p) (k : String)
    (hk : k ≠ operatorDefaults) : Data.get p.Data k = Data.get a.Data k := by
  rw [removeConfig_eq] at h
  split at h
  · simp only [Option.some.injEq] at h
    rw [h]
  · cases hl : LoadFile L (Data.index a.Data operatorDefaults) with
    | none => simp [hl] at h
    | some conf =>
      rw [hl] at h
      simp only [Option.map_some', Option.some.injEq] at h
      subst h
      simp [Data.get_set, hk]

theorem Data.get_renderedData_operator (L : Libs) (inst : RabbitmqCluster) (oc uc : Section)
    (d : Data) :
    Data.get (renderedData L inst oc uc d) "operatorDefaults.conf" = some (L.render oc) := by
  have e1 : ("operatorDefaults.conf" : String) ≠ "rabbitmq-env.conf" := by decide
  have e2 : ("operatorDefaults.conf" : String) ≠ "advanced.config" := by decide
  have e3 : ("operatorDefaults.conf" : String) ≠ "userDefinedConfiguration.conf" := by decide
  simp only [Data.get_renderedData, e1, e2, e3, if_false]
  rfl

theorem Data.get_renderedData_user (L : Libs) (inst : RabbitmqCluster) (oc uc : Section)
    (d : Data) :
    Data.get (renderedData L inst oc uc d) "userDefinedConfiguration.conf" =
      some (L.render uc) := by
  have e1 : ("userDefinedConfiguration.conf" : String) ≠ "rabbitmq-env.conf" := by decide
  have e2 : ("userDefinedConfiguration.conf" : String) ≠ "advanced.config" := by decide
  simp only [Data.get_renderedData, e1, e2, if_false, if_true]

/-! ## Values in the user's document -/

theorem Spec.isPeerEntry_eq (kv : String × String) : Spec.isPeerEntry kv = !keepsEntry kv := by
  simp [Spec.isPeerEntry, keepsEntry, HasPrefix, nodesPrefix]

/-- What `removeConfigNotRequiringNodeRestart` returns, entry by entry, is the object
normalised in the words of the specification. -/
theorem removeConfig_normalizedEntry (L : Libs) (a p : ConfigMap)
    (h : removeConfigNotRequiringNodeRestart L a = some p) :
    p.toObjectMeta = a.toObjectMeta ∧
      (∀ k, Data.get p.Data k = Spec.normalizedEntry L a k) ∧ Spec.Parses L a := by
  rw [removeConfig_eq] at h
  split at h
  · next h0 =>
    simp only [Option.some.injEq] at h
    subst h
    refine ⟨rfl, ?_, ?_⟩
    · intro k
      unfold Spec.normalizedEntry
      split
      · next hk =>
        subst hk
        have h0' : (Data.get a.Data "operatorDefaults.conf").getD "" = "" := h0
        cases hg : Data.get a.Data "operatorDefaults.conf" with
        | none => rfl
        | some text =>
          rw [hg] at h0'
          simp only [Option.getD_some] at h0'
          subst h0'
          rfl
      · rfl
    · intro text hg hne
      have h0' : (Data.get a.Data "operatorDefaults.conf").getD "" = "" := h0
      rw [hg] at h0'
      exact absurd h0' hne
  · next h0 =>
    cases hl : LoadFile L (Data.index a.Data operatorDefaults) with
    | none => simp [hl] at h
    | some conf =>
      rw [hl] at h
      simp only [Option.map_some', Option.some.injEq] at h
      subst h
      have hdel : deleteNodeKeys conf.Default =
          conf.Default.filter (fun kv => !Spec.isPeerEntry kv) := by
        rw [deleteNodeKeys_eq_filter _ (LoadFile_nodup L _ conf hl)]
        apply List.filter_congr
        intro kv _
        rw [Spec.isPeerEntry_eq, Bool.not_not]
      have hidx : ∀ text, Data.get a.Data "operatorDefaults.conf" = some text →
          Data.index a.Data operatorDefaults = text := by
        intro text hg
        show (Data.get a.Data "operatorDefaults.conf").getD "" = text
        rw [hg]; rfl
      refine ⟨rfl, ?_, ?_⟩
      · intro k
        unfold Spec.normalizedEntry
        split
        · next hk =>
          subst hk
          cases hg : Data.get a.Data "operatorDefaults.conf" with
          | none =>
            exfalso
            apply h0
            show (Data.get a.Data "operatorDefaults.conf").getD "" = ""
            rw [hg]; rfl
          | some text =>
            have ht := hidx text hg
            rw [ht] at hl h0
            simp only [Option.some_bind, if_neg h0, hl, Option.map_some']
            show Data.get (Data.set a.Data operatorDefaults _) operatorDefaults = _
            rw [Data.get_set, if_pos rfl, hdel]
            rfl
        · next hk =>
          show Data.get (Data.set a.Data operatorDefaults _) k = _
          rw [Data.get_set]
          exact if_neg hk
      · intro text hg _
        rw [← hidx text hg]
        exact ⟨conf, hl⟩

/-! ## The plain libraries -/

theorem Plain.upsertOwnerRef_idem (ref : OwnerReference) (refs : List OwnerReference) :
    Plain.upsertOwnerRef ref (Plain.upsertOwnerRef ref refs) = Plain.upsertOwnerRef ref refs := by
  have hself : Plain.referSameObject ref ref = true := by simp [Plain.referSameObject]
  induction refs with
  | nil => simp [Plain.upsertOwnerRef, hself]
  | cons r rs ih =>
    by_cases hr : Plain.referSameObject r ref = true
    · simp [Plain.upsertOwnerRef, hr, hself]
    · simp [Plain.upsertOwnerRef, hr, ih]

theorem Plain.mem_upsertOwnerRef (ref r : OwnerReference) (refs : List OwnerReference)
    (h : r ∈ Plain.upsertOwnerRef ref refs) : r = ref ∨ r ∈ refs := by
  induction refs with
  | nil => simpa [Plain.upsertOwnerRef] using h
  | cons x xs ih =>
    unfold Plain.upsertOwnerRef at h
    split at h
    · rcases List.mem_cons.mp h with h | h
      · exact Or.inl h
      · exact Or.inr (List.mem_cons_of_mem _ h)
    · rcases List.mem_cons.mp h with h | h
      · exact Or.inr (h ▸ List.mem_cons_self _ _)
      · rcases ih h with h | h
        · exact Or.inl h
        · exact Or.inr (List.mem_cons_of_mem _ h)

theorem Plain.controllerReferenceIdempotent : Plain.libs.ControllerReferenceIdempotent := by
  intro owner controlled owned h
  simp only [Plain.libs, Plain.SetControllerReference] at h ⊢
  split at h
  · simp at h
  · next hns =>
    split at h
    · simp at h
    · next hctl =>
      simp only [Option.some.injEq] at h
      subst h
      simp only [hns, if_false]
      rw [if_neg]
      · simp only [Plain.upsertOwnerRef_idem]
      · intro hany
        apply hctl
        simp only [List.any_eq_true] at hany ⊢
        obtain ⟨r, hr, hc⟩ := hany
        rcases Plain.mem_upsertOwnerRef _ _ _ hr with e | hmem
        · subst e
          simp [Plain.referSameObject] at hc
        · exact ⟨r, hmem, hc⟩

/-! ## The claims -/

/-- C4: for every memory limit `L` that fits a 64-bit signed integer, `removeHeadroom L` is
`L - min (L / 5) 2147483648`, with the division truncating as Go's does. -/
theorem removeHeadroom_formula (L : Int) (hlo : -2 ^ 63 ≤ L) (hhi : L < 2 ^ 63) :
    removeHeadroom L = L - min (L.tdiv 5) 2147483648 := by
  unfold removeHeadroom GiB
  norm_num at hlo hhi
  obtain ⟨hpos, hneg⟩ := tdiv_five_bounds L
  generalize L.tdiv 5 = q at hpos hneg ⊢
  split
  · next h =>
    rw [wrapInt64_of_range _ (by omega) (by omega), min_eq_right (by omega)]
    norm_num
  · next h =>
    rw [wrapInt64_of_range _ (by omega) (by omega), min_eq_left (by omega)]

theorem removeHeadroom_formula_witness :
    (-2 ^ 63 ≤ (10737418240 : Int) ∧ (10737418240 : Int) < 2 ^ 63) ∧
      removeHeadroom 10737418240 = 10737418240 - min ((10737418240 : Int).tdiv 5) 2147483648 :=
  ⟨by decide, removeHeadroom_formula 10737418240 (by decide) (by decide)⟩

/-- C5: when `Update` succeeds on any object, a second `Update` with a fresh builder for the
same cluster on the object it produced succeeds, leaves every data entry and the metadata
as they are, and clears the restart flag; the controller reference is taken to be
idempotent. -/
theorem Update_idempotent (L : Libs) (b : ServerConfigMapBuilder) (cm : ConfigMap)
    (hown : L.ControllerReferenceIdempotent) (h : (Update L b cm).err = false) :
    (Update L (ServerConfigMap b.Instance) (Update L b cm).object).err = false ∧
      (∀ k, Data.get (Update L (ServerConfigMap b.Instance) (Update L b cm).object).object.Data k =
        Data.get (Update L b cm).object.Data k) ∧
      (Update L (ServerConfigMap b.Instance) (Update L b cm).object).object.toObjectMeta =
        (Update L b cm).object.toObjectMeta ∧
      (Update L (ServerConfigMap b.Instance)
        (Update L b cm).object).builder.UpdateRequiresStsRestart = false := by
  obtain ⟨opc, uc, uc2, m, p, u, h1, h2, h3, h4, h5, h6, hU⟩ := Update_of_ok L b cm h
  rw [hU]
  simp only
  have hget : ∀ k,
      Data.get (renderedData L b.Instance opc uc2 (renderedData L b.Instance opc uc2 cm.Data)) k =
        Data.get (renderedData L b.Instance opc uc2 cm.Data) k := by
    intro k
    simp only [Data.get_renderedData]
    repeat' split
    all_goals rfl
  obtain ⟨u2, h6b, heq⟩ :=
    removeConfig_congr L
      { toObjectMeta := m, Data := renderedData L b.Instance opc uc2 cm.Data }
      { toObjectMeta := m,
        Data := renderedData L b.Instance opc uc2 (renderedData L b.Instance opc uc2 cm.Data) }
      rfl (fun k => (hget k).symm) u h6
  have hU2 := Update_of_steps L (ServerConfigMap b.Instance)
    { toObjectMeta := m, Data := renderedData L b.Instance opc uc2 cm.Data }
    opc uc uc2 m u u2 h1 h2 h3 (hown _ _ _ h4) h6 h6b
  rw [hU2]
  refine ⟨rfl, hget, rfl, ?_⟩
  simp [heq]

theorem Update_idempotent_witness :
    (Update Plain.libs (ServerConfigMap Sample.cluster) Sample.configMap).err = false ∧
      (Update Plain.libs (ServerConfigMap Sample.cluster)
        (Update Plain.libs (ServerConfigMap Sample.cluster)
          Sample.configMap).object).builder.UpdateRequiresStsRestart = false :=
  ⟨by decide,
    (Update_idempotent Plain.libs (ServerConfigMap Sample.cluster) Sample.configMap
      Plain.controllerReferenceIdempotent (by decide)).2.2.2⟩

theorem removeConfig_renderedData (L : Libs) (inst : RabbitmqCluster) (oc uc : Section)
    (m : ObjectMeta) (d : Data) (hread : L.ReadsBack oc) :
    removeConfigNotRequiringNodeRestart L
        { toObjectMeta := m, Data := renderedData L inst oc uc d } =
      some
        { toObjectMeta := m,
          Data := Data.set (renderedData L inst oc uc d) operatorDefaults
            (L.render (deleteNodeKeys oc)) } := by
  rw [removeConfig_eq]
  simp only [Data.index_renderedData]
  rw [if_neg hread.1, hread.2]
  rfl

/-- C1: a change of nothing but the replica count does not require a restart.  The existing
object is what a successful `Update` for the cluster with replicas `r1` left; `Update` with a
fresh builder for the same cluster with replicas `r2` succeeds and clears the flag.  This holds
for every pair of replica settings, those with `N1, N2 ≥ 1` among them; the controller
reference is taken to be idempotent and the ini library to read back the two operator
documents it wrote. -/
theorem scaling_requires_no_restart (L : Libs) (inst : RabbitmqCluster) (flag : Bool)
    (cm : ConfigMap) (r1 r2 : Option Int)
    (hown : L.ControllerReferenceIdempotent)
    (hread1 : ∀ d, operatorConfiguration L (inst.withReplicas r1) = some d → L.ReadsBack d)
    (hread2 : ∀ d, operatorConfiguration L (inst.withReplicas r2) = some d → L.ReadsBack d)
    (h : (Update L ⟨inst.withReplicas r1, flag⟩ cm).err = false) :
    (Update L (ServerConfigMap (inst.withReplicas r2))
        (Update L ⟨inst.withReplicas r1, flag⟩ cm).object).err = false ∧
      (Update L (ServerConfigMap (inst.withReplicas r2))
        (Update L ⟨inst.withReplicas r1, flag⟩ cm).object).builder.UpdateRequiresStsRestart =
        false := by
  obtain ⟨opc, uc, uc2, m, p, u, h1, h2, h3, h4, h5, h6, hU⟩ := Update_of_ok L _ cm h
  rw [hU]
  simp only at h1 h2 h3 h4 h6 ⊢
  have hr1 := hread1 opc h1
  rw [operatorConfiguration_eq] at h1
  cases hb : Load L defaultRabbitmqConf with
  | none => simp [hb] at h1
  | some base =>
    rw [hb] at h1
    simp only [Option.map_some', Option.some.injEq] at h1
    have hnd := Load_nodup L _ base hb
    have h1b : operatorConfiguration L (inst.withReplicas r2) =
        some (operatorSection (inst.withReplicas r2) base) := by
      rw [operatorConfiguration_eq, hb]; rfl
    have hr2 := hread2 _ h1b
    have hdel : deleteNodeKeys (operatorSection (inst.withReplicas r2) base) =
        deleteNodeKeys opc := by
      rw [← h1, deleteNodeKeys_operatorSection inst base hnd,
        deleteNodeKeys_operatorSection inst base hnd]
    have h6a := h6
    rw [removeConfig_renderedData L _ opc uc2 m cm.Data hr1] at h6
    have h6b := removeConfig_renderedData L (inst.withReplicas r2)
      (operatorSection (inst.withReplicas r2) base) uc2 m
      (renderedData L (inst.withReplicas r1) opc uc2 cm.Data) hr2
    have hU2 := Update_of_steps L (ServerConfigMap (inst.withReplicas r2))
      { toObjectMeta := m, Data := renderedData L (inst.withReplicas r1) opc uc2 cm.Data }
      _ uc uc2 m _ _ h1b h2 h3 (hown _ _ _ h4) h6a h6b
    rw [hU2]
    refine ⟨rfl, ?_⟩
    simp only [ServerConfigMap, Bool.true_and, Bool.not_eq_false']
    simp only [Option.some.injEq] at h6
    subst h6
    refine (DeepEqual_iff _ _).mpr ⟨rfl, ?_⟩
    intro k
    have hR1 : (inst.withReplicas r1).Spec.Rabbitmq = inst.Spec.Rabbitmq := rfl
    have hR2 : (inst.withReplicas r2).Spec.Rabbitmq = inst.Spec.Rabbitmq := rfl
    simp only [Data.get_set, Data.get_renderedData, hdel, hR1, hR2]
    repeat' split
    all_goals rfl

theorem Sample.readsBack (r : Option Int) (hr : r = some 3 ∨ r = some 5) :
    ∀ d, operatorConfiguration Plain.libs (Sample.cluster.withReplicas r) = some d →
      Plain.libs.ReadsBack d := by
  intro d hd
  rcases hr with hr | hr <;> subst hr
  · have h0 : operatorConfiguration Plain.libs (Sample.cluster.withReplicas (some 3)) =
        some ((operatorConfiguration Plain.libs (Sample.cluster.withReplicas (some 3))).getD []) := by
      decide
    rw [h0] at hd
    simp only [Option.some.injEq] at hd
    subst hd
    show _ ≠ _ ∧ _ = _
    decide
  · have h0 : operatorConfiguration Plain.libs (Sample.cluster.withReplicas (some 5)) =
        some ((operatorConfiguration Plain.libs (Sample.cluster.withReplicas (some 5))).getD []) := by
      decide
    rw [h0] at hd
    simp only [Option.some.injEq] at hd
    subst hd
    show _ ≠ _ ∧ _ = _
    decide

theorem scaling_requires_no_restart_witness :
    (Update Plain.libs ⟨Sample.cluster.withReplicas (some 3), true⟩ Sample.configMap).err = false ∧
      (Update Plain.libs (ServerConfigMap (Sample.cluster.withReplicas (some 5)))
        (Update Plain.libs ⟨Sample.cluster.withReplicas (some 3), true⟩
          Sample.configMap).object).builder.UpdateRequiresStsRestart = false :=
  ⟨by decide,
    (scaling_requires_no_restart Plain.libs Sample.cluster true Sample.configMap (some 3) (some 5)
      Plain.controllerReferenceIdempotent (Sample.readsBack _ (Or.inl rfl))
      (Sample.readsBack _ (Or.inr rfl)) (by decide)).2⟩

/-- C3: the operator defaults that a successful `Update` writes are the six entries of the
template, then one peer entry per ordinal `0..N-1` in ascending order, the entry of ordinal
`i` with key `cluster_formation.classic_config.nodes.<i+1>` and value
`rabbit@<stsName>-<i>.<headlessServiceName>.<namespace>`, then `cluster_name`; the keys
with the peer prefix are exactly these `N` entries.  `N` is `spec.replicas`, 1 when unset
(no entry at all for a count below 1); the ini library is taken to read the template as its
six lines. -/
theorem peer_list_of_operator_defaults (L : Libs) (b : ServerConfigMapBuilder) (cm : ConfigMap)
    (hbase : L.parse defaultRabbitmqConf = some defaultRabbitmqEntries)
    (h : (Update L b cm).err = false) :
    let N := (Int32PtrDerefOr b.Instance.Spec.Replicas 1).toNat
    let peers : List (String × String) :=
      (List.range N).map (fun i =>
        ("cluster_formation.classic_config.nodes." ++ toString (i + 1),
         "rabbit@" ++ b.Instance.ChildResourceName stsSuffix ++ "-" ++ toString i ++ "." ++
           b.Instance.ChildResourceName headlessServiceSuffix ++ "." ++ b.Instance.Namespace))
    let doc : Section := defaultRabbitmqEntries ++ peers ++ [("cluster_name", b.Instance.Name)]
    Data.get (Update L b cm).object.Data "operatorDefaults.conf" = some (L.render doc) ∧
      doc.filter (fun kv => HasPrefix kv.1 "cluster_formation.classic_config.nodes.") = peers ∧
      peers.length = N := by
  intro N peers doc
  obtain ⟨opc, uc, uc2, m, p, u, h1, h2, h3, h4, h5, h6, hU⟩ := Update_of_ok L b cm h
  rw [operatorConfiguration_eq, Load_defaultRabbitmqConf L hbase] at h1
  simp only [Option.map_some', Option.some.injEq] at h1
  have hdoc : doc = opc := by rw [← h1, operatorSection_default]; rfl
  refine ⟨?_, ?_, ?_⟩
  · rw [hU, hdoc]
    have e1 : ("operatorDefaults.conf" : String) ≠ "rabbitmq-env.conf" := by decide
    have e2 : ("operatorDefaults.conf" : String) ≠ "advanced.config" := by decide
    have e3 : ("operatorDefaults.conf" : String) ≠ "userDefinedConfiguration.conf" := by decide
    simp only [Data.get_renderedData, e1, e2, e3, if_false]
    rfl
  · rw [hdoc, ← h1]
    exact filter_nodes_operatorSection b.Instance
  · simp [peers]

theorem peer_list_of_operator_defaults_witness :
    Plain.libs.parse defaultRabbitmqConf = some defaultRabbitmqEntries ∧
      (Update Plain.libs (ServerConfigMap Sample.cluster) Sample.configMap).err = false ∧
      Data.get (Update Plain.libs (ServerConfigMap Sample.cluster) Sample.configMap).object.Data
          "operatorDefaults.conf" =
        some (Plain.libs.render
          (defaultRabbitmqEntries ++
            [("cluster_formation.classic_config.nodes.1",
                "rabbit@rabbit-server-0.rabbit-headless.prod"),
              ("cluster_formation.classic_config.nodes.2",
                "rabbit@rabbit-server-1.rabbit-headless.prod"),
              ("cluster_formation.classic_config.nodes.3",
                "rabbit@rabbit-server-2.rabbit-headless.prod")] ++
            [("cluster_name", "rabbit")])) :=
  ⟨by decide, by decide,
    (peer_list_of_operator_defaults Plain.libs (ServerConfigMap Sample.cluster) Sample.configMap
      (by decide) (by decide)).1⟩

/-- C6: after a successful `Update`, whatever the object held before, `advanced.config` is
present exactly when `spec.rabbitmq.advancedConfig` is not empty, and then with that text;
the same for `rabbitmq-env.conf` and `spec.rabbitmq.envConfig`.  A cleared override leaves
no key behind. -/
theorem override_files_follow_spec (L : Libs) (b : ServerConfigMapBuilder) (cm : ConfigMap)
    (h : (Update L b cm).err = false) :
    Data.get (Update L b cm).object.Data "advanced.config" =
        (if b.Instance.Spec.Rabbitmq.AdvancedConfig = "" then none
          else some b.Instance.Spec.Rabbitmq.AdvancedConfig) ∧
      Data.get (Update L b cm).object.Data "rabbitmq-env.conf" =
        (if b.Instance.Spec.Rabbitmq.EnvConfig = "" then none
          else some b.Instance.Spec.Rabbitmq.EnvConfig) := by
  obtain ⟨opc, uc, uc2, m, p, u, h1, h2, h3, h4, h5, h6, hU⟩ := Update_of_ok L b cm h
  rw [hU]
  have e : ("advanced.config" : String) ≠ "rabbitmq-env.conf" := by decide
  simp [Data.get_renderedData, e]

theorem override_files_follow_spec_witness :
    (Update Plain.libs (ServerConfigMap Sample.cluster) Sample.staleConfigMap).err = false ∧
      Data.get Sample.staleConfigMap.Data "advanced.config" = some "[]." ∧
      Data.get (Update Plain.libs (ServerConfigMap Sample.cluster)
        Sample.staleConfigMap).object.Data "advanced.config" = none :=
  ⟨by decide, by decide,
    (override_files_follow_spec Plain.libs (ServerConfigMap Sample.cluster) Sample.staleConfigMap
      (by decide)).1⟩

/-- C7, as the code has it: when `additionalConfig` cannot be appended, `Update` returns an
error and leaves the builder, the metadata and every data entry other than
`operatorDefaults.conf` as they were; `operatorDefaults.conf` is as before or holds the
operator's document, which line 222 assigns before `additionalConfig` is read. -/
theorem unparsable_additionalConfig (L : Libs) (b : ServerConfigMapBuilder) (cm : ConfigMap)
    (hbad : ∀ s, Append L s b.Instance.Spec.Rabbitmq.AdditionalConfig = none) :
    (Update L b cm).err = true ∧ (Update L b cm).builder = b ∧
      (Update L b cm).object.toObjectMeta = cm.toObjectMeta ∧
      (∀ k, k ≠ "operatorDefaults.conf" →
        Data.get (Update L b cm).object.Data k = Data.get cm.Data k) ∧
      (Data.get (Update L b cm).object.Data "operatorDefaults.conf" =
          Data.get cm.Data "operatorDefaults.conf" ∨
        ∃ d, operatorConfiguration L b.Instance = some d ∧
          Data.get (Update L b cm).object.Data "operatorDefaults.conf" = some (L.render d)) := by
  unfold Update
  cases h1 : operatorConfiguration L b.Instance with
  | none => simp
  | some opc =>
    cases h2 : userConfiguration L b.Instance with
    | none => simp
    | some uc =>
      simp only [hbad uc]
      refine ⟨trivial, trivial, trivial, ?_, Or.inr ⟨opc, rfl, ?_⟩⟩
      · intro k hk
        simp [Data.get_set, operatorDefaults, hk]
      · simp [Data.get_set, operatorDefaults]

theorem unparsable_additionalConfig_witness :
    (Update Plain.libs (ServerConfigMap Sample.brokenCluster) Sample.staleConfigMap).err = true ∧
      Data.get (Update Plain.libs (ServerConfigMap Sample.brokenCluster)
        Sample.staleConfigMap).object.Data "advanced.config" = some "[]." :=
  ⟨(unparsable_additionalConfig Plain.libs (ServerConfigMap Sample.brokenCluster)
      Sample.staleConfigMap (fun s => by
        have hp : Plain.parse "vm_memory_high_watermark.relative 0.6" = none := by decide
        simp [Append, Plain.libs, Sample.brokenCluster, ServerConfigMap, hp])).1,
    by decide⟩

/-- C7 fails as stated: the cluster's `additionalConfig` has a line without a delimiter, the
object had no `operatorDefaults.conf`, and after the failed `Update` it has one. -/
theorem unparsable_additionalConfig_leaves_operator_defaults :
    Plain.libs.parse Sample.brokenCluster.Spec.Rabbitmq.AdditionalConfig = none ∧
      (Update Plain.libs (ServerConfigMap Sample.brokenCluster) Sample.configMap).err = true ∧
      Data.get Sample.configMap.Data "operatorDefaults.conf" = none ∧
      (Data.get (Update Plain.libs (ServerConfigMap Sample.brokenCluster)
        Sample.configMap).object.Data "operatorDefaults.conf").isSome = true := by
  decide

/-- C8, as the code has it: after a successful `Update` the flag is true exactly when it
was true before the call and the object as it was before the call and the object as updated
differ after normalisation in the words of the specification: in their metadata, or in a
data entry, where each `operatorDefaults.conf` is parsed, rid of the entries of its unnamed
section whose key begins with `cluster_formation.classic_config.nodes.`, and written again.
Both `operatorDefaults.conf` parse.  A flag that was true (a fresh builder) is thus
recomputed; a flag that was false stays false. -/
theorem flag_after_Update (L : Libs) (b : ServerConfigMapBuilder) (cm : ConfigMap)
    (h : (Update L b cm).err = false) :
    Spec.Parses L cm ∧ Spec.Parses L (Update L b cm).object ∧
      ((Update L b cm).builder.UpdateRequiresStsRestart = true ↔
        b.UpdateRequiresStsRestart = true ∧
          Spec.DifferWithoutPeerEntries L cm (Update L b cm).object) := by
  obtain ⟨opc, uc, uc2, m, p, u, -, -, -, -, h5, h6, hU⟩ := Update_of_ok L b cm h
  rw [hU]
  simp only
  obtain ⟨pm, pd, pp⟩ := removeConfig_normalizedEntry L _ _ h5
  obtain ⟨um, ud, up⟩ := removeConfig_normalizedEntry L _ _ h6
  refine ⟨pp, up, ?_⟩
  have hde : DeepEqual p u = true ↔
      ¬ Spec.DifferWithoutPeerEntries L cm
        { toObjectMeta := m, Data := renderedData L b.Instance opc uc2 cm.Data } := by
    rw [DeepEqual_iff, pm, um]
    unfold Spec.DifferWithoutPeerEntries
    simp only [pd, ud, not_or, not_exists, not_not, ne_eq]
  cases hd : DeepEqual p u with
  | true =>
    have := hde.mp hd
    simp [this]
  | false =>
    have : Spec.DifferWithoutPeerEntries L cm
        { toObjectMeta := m, Data := renderedData L b.Instance opc uc2 cm.Data } := by
      by_contra hc
      rw [hde.mpr hc] at hd
      exact Bool.noConfusion hd
    simp [this]

theorem flag_after_Update_witness :
    ((Update Plain.libs (ServerConfigMap Sample.cluster) Sample.configMap).err = false ∧
      (Update Plain.libs (ServerConfigMap Sample.cluster)
        Sample.configMap).builder.UpdateRequiresStsRestart = true ∧
      Spec.DifferWithoutPeerEntries Plain.libs Sample.configMap
        (Update Plain.libs (ServerConfigMap Sample.cluster) Sample.configMap).object) ∧
    ((Update Plain.libs (ServerConfigMap (Sample.cluster.withReplicas (some 5)))
        (Update Plain.libs (ServerConfigMap Sample.cluster) Sample.configMap).object).err =
          false ∧
      Data.get (Update Plain.libs (ServerConfigMap (Sample.cluster.withReplicas (some 5)))
          (Update Plain.libs (ServerConfigMap Sample.cluster)
            Sample.configMap).object).object.Data "operatorDefaults.conf" ≠
        Data.get (Update Plain.libs (ServerConfigMap Sample.cluster)
          Sample.configMap).object.Data "operatorDefaults.conf" ∧
      (Update Plain.libs (ServerConfigMap (Sample.cluster.withReplicas (some 5)))
        (Update Plain.libs (ServerConfigMap Sample.cluster)
          Sample.configMap).object).builder.UpdateRequiresStsRestart = false ∧
      ¬ Spec.DifferWithoutPeerEntries Plain.libs
        (Update Plain.libs (ServerConfigMap Sample.cluster) Sample.configMap).object
        (Update Plain.libs (ServerConfigMap (Sample.cluster.withReplicas (some 5)))
          (Update Plain.libs (ServerConfigMap Sample.cluster)
            Sample.configMap).object).object) :=
  ⟨⟨by decide, by decide,
    ((flag_after_Update Plain.libs (ServerConfigMap Sample.cluster) Sample.configMap
      (by decide)).2.2.mp (by decide)).2⟩,
   ⟨by decide, by decide, by decide, fun hd =>
    absurd
      ((flag_after_Update Plain.libs (ServerConfigMap (Sample.cluster.withReplicas (some 5)))
        (Update Plain.libs (ServerConfigMap Sample.cluster) Sample.configMap).object
        (by decide)).2.2.mpr ⟨rfl, hd⟩)
      (by decide)⟩⟩

/-- C8 fails as stated for a builder whose flag is false: `Update` succeeds, the object
before and the object after differ once the peer entries are removed (the object before has
no `userDefinedConfiguration.conf`, the object after has one), and the flag is false. -/
theorem flag_stays_false_on_difference :
    (Update Plain.libs ⟨Sample.cluster, false⟩ Sample.configMap).err = false ∧
      Spec.DifferWithoutPeerEntries Plain.libs Sample.configMap
        (Update Plain.libs ⟨Sample.cluster, false⟩ Sample.configMap).object ∧
      (Update Plain.libs ⟨Sample.cluster, false⟩
        Sample.configMap).builder.UpdateRequiresStsRestart = false :=
  ⟨by decide, Or.inr ⟨"userDefinedConfiguration.conf", by decide⟩, by decide⟩

/-- C9, as the code has it: `UpdateMayRequireStsRecreate` is false for every builder,
whatever its restart flag; the flag is read from the field. -/
theorem UpdateMayRequireStsRecreate_false (b : ServerConfigMapBuilder) :
    UpdateMayRequireStsRecreate b = false := rfl

/-- C9 fails as stated: after this successful `Update` the restart flag is true and
`UpdateMayRequireStsRecreate` returns false. -/
theorem recreate_signal_ignores_restart_flag :
    (Update Plain.libs (ServerConfigMap Sample.cluster) Sample.configMap).err = false ∧
      (Update Plain.libs (ServerConfigMap Sample.cluster)
        Sample.configMap).builder.UpdateRequiresStsRestart = true ∧
      UpdateMayRequireStsRecreate
        (Update Plain.libs (ServerConfigMap Sample.cluster) Sample.configMap).builder = false := by
  decide

/-- C2, as the code has it: enabling TLS requires a restart unless the user document comes
out as the same text.  The existing object is what a successful `Update` for the cluster
left (any cluster, those with TLS disabled among them).  `Update` with a fresh builder for
the same cluster with only TLS enabled leaves the flag true, unless the user document of
the cluster with TLS enabled is written as the same text as the user document of the
cluster as it was.  When the two are written as the same text, and the controller reference
is idempotent, that `Update` succeeds and clears the flag. -/
theorem enabling_tls_requires_restart (L : Libs) (inst : RabbitmqCluster) (flag : Bool)
    (cm : ConfigMap)
    (h : (Update L ⟨inst, flag⟩ cm).err = false) :
    ((∀ u0 u1, userDocument L inst = some u0 → userDocument L inst.withTLSEnabled = some u1 →
        L.render u0 ≠ L.render u1) →
      (Update L (ServerConfigMap inst.withTLSEnabled)
        (Update L ⟨inst, flag⟩ cm).object).builder.UpdateRequiresStsRestart = true) ∧
    (L.ControllerReferenceIdempotent →
      ∀ u0 u1, userDocument L inst = some u0 → userDocument L inst.withTLSEnabled = some u1 →
        L.render u0 = L.render u1 →
        (Update L (ServerConfigMap inst.withTLSEnabled)
          (Update L ⟨inst, flag⟩ cm).object).err = false ∧
        (Update L (ServerConfigMap inst.withTLSEnabled)
          (Update L ⟨inst, flag⟩ cm).object).builder.UpdateRequiresStsRestart = false) := by
  obtain ⟨opc, uc, uc2, m, p, u, h1, h2, h3, h4, h5, h6, hU⟩ := Update_of_ok L _ cm h
  simp only at h1 h2 h3 h4 h6
  rw [hU]
  simp only
  have hu0 : userDocument L inst = some uc2 := by
    unfold userDocument; rw [h2]; exact h3
  have e0 : ("userDefinedConfiguration.conf" : String) ≠ operatorDefaults := by decide
  constructor
  · intro hdiff
    rcases Update_builder_or_ok L (ServerConfigMap inst.withTLSEnabled)
        { toObjectMeta := m, Data := renderedData L inst opc uc2 cm.Data } with hb | hok
    · rw [hb]; rfl
    · obtain ⟨opc', uc', uc2', m', p', u', g1, g2, g3, g4, g5, g6, gU⟩ :=
        Update_of_ok L _ _ hok
      simp only [ServerConfigMap] at g2 g3 g6
      rw [gU]
      simp only [ServerConfigMap, Bool.true_and, Bool.not_eq_true']
      cases hde : DeepEqual p' u' with
      | false => rfl
      | true =>
        exfalso
        have hget := ((DeepEqual_iff _ _).mp hde).2 "userDefinedConfiguration.conf"
        rw [removeConfig_get L _ _ g5 _ e0, removeConfig_get L _ _ g6 _ e0] at hget
        simp only [Data.get_renderedData_user, Option.some.injEq] at hget
        have hu1 : userDocument L inst.withTLSEnabled = some uc2' := by
          unfold userDocument; rw [g2]; exact g3
        exact hdiff uc2 uc2' hu0 hu1 hget
  · intro hown u0 u1 hd0 hd1 heq
    rw [hu0] at hd0
    simp only [Option.some.injEq] at hd0
    subst hd0
    have hd1' := hd1
    unfold userDocument at hd1'
    cases g2 : userConfiguration L inst.withTLSEnabled with
    | none => simp [g2] at hd1'
    | some uc' =>
      rw [g2] at hd1'
      simp only [Option.some_bind] at hd1'
      have hR : inst.withTLSEnabled.Spec.Rabbitmq = inst.Spec.Rabbitmq := rfl
      have hget : ∀ k,
          Data.get (renderedData L inst opc uc2 cm.Data) k =
            Data.get (renderedData L inst.withTLSEnabled opc u1
              (renderedData L inst opc uc2 cm.Data)) k := by
        intro k
        simp only [Data.get_renderedData, hR, heq]
        repeat' split
        all_goals rfl
      obtain ⟨u2, h6b, hde⟩ :=
        removeConfig_congr L
          { toObjectMeta := m, Data := renderedData L inst opc uc2 cm.Data }
          { toObjectMeta := m,
            Data := renderedData L inst.withTLSEnabled opc u1
              (renderedData L inst opc uc2 cm.Data) }
          rfl hget u h6
      have hU2 := Update_of_steps L (ServerConfigMap inst.withTLSEnabled)
        { toObjectMeta := m, Data := renderedData L inst opc uc2 cm.Data }
        opc uc' u1 m u u2 h1 g2 hd1' (hown _ _ _ h4) h6 h6b
      rw [hU2]
      refine ⟨rfl, ?_⟩
      simp [hde]

theorem enabling_tls_requires_restart_witness :
    Sample.templateTLSCluster.Spec.TLSEnabled = false ∧
      (Update Plain.libs ⟨Sample.templateTLSCluster, true⟩ Sample.configMap).err = false ∧
      (Update Plain.libs (ServerConfigMap Sample.templateTLSCluster.withTLSEnabled)
        (Update Plain.libs ⟨Sample.templateTLSCluster, true⟩
          Sample.configMap).object).builder.UpdateRequiresStsRestart = true :=
  ⟨rfl, by decide,
    (enabling_tls_requires_restart Plain.libs Sample.templateTLSCluster true Sample.configMap
      (by decide)).1
      (fun u0 u1 h0 h1 => by
        have e0 : userDocument Plain.libs Sample.templateTLSCluster =
            some defaultTLSEntries := by decide
        have e1 : userDocument Plain.libs Sample.templateTLSCluster.withTLSEnabled =
            some (defaultTLSEntries ++ listenerEntries Sample.templateTLSCluster) := by decide
        rw [e0] at h0
        rw [e1] at h1
        rw [← Option.some.inj h0, ← Option.some.inj h1]
        decide)⟩

/-- C2 fails as stated: this cluster has TLS disabled and writes the TLS block out in its
`additionalConfig`; both calls of `Update` succeed, and the second, for the same cluster with
only TLS enabled, clears the flag. -/
theorem enabling_tls_after_hand_written_block :
    Sample.handWrittenTLSCluster.Spec.TLSEnabled = false ∧
      (Update Plain.libs (ServerConfigMap Sample.handWrittenTLSCluster)
        Sample.configMap).err = false ∧
      (Update Plain.libs (ServerConfigMap Sample.handWrittenTLSCluster.withTLSEnabled)
        (Update Plain.libs (ServerConfigMap Sample.handWrittenTLSCluster)
          Sample.configMap).object).err = false ∧
      (Update Plain.libs (ServerConfigMap Sample.handWrittenTLSCluster.withTLSEnabled)
        (Update Plain.libs (ServerConfigMap Sample.handWrittenTLSCluster)
          Sample.configMap).object).builder.UpdateRequiresStsRestart = false := by
  decide

/-- C13 fails as stated: a fifth of 100 GiB is 20 GiB, above the cap of 2 GiB, so the result
is not 80 GiB. -/
theorem removeHeadroom_100GiB_is_not_80GiB : removeHeadroom 107374182400 ≠ 85899345920 := by
  decide

/-- C13, as the code has it: at 100 GiB the cap applies, and `removeHeadroom` takes 2 GiB
off: `removeHeadroom 107374182400 = 105226698752`, that is 98 GiB. -/
theorem removeHeadroom_100GiB : removeHeadroom 107374182400 = 105226698752 := by
  decide

/-- C14: `removeHeadroom` of 10 GiB is 8 GiB (a fifth is exactly 2 GiB, which is not above
the cap), and of 5 GiB it is 4 GiB. -/
theorem removeHeadroom_10GiB_and_5GiB :
    removeHeadroom 10737418240 = 8589934592 ∧ removeHeadroom 5368709120 = 4294967296 := by
  decide

/-- C20: a builder from `ServerConfigMap` starts with the flag true, and a call of `Update`
on a builder whose flag is false leaves it false, whether the call returns an error or
not. -/
theorem flag_is_only_cleared (L : Libs) (inst : RabbitmqCluster) (cm : ConfigMap) :
    (ServerConfigMap inst).UpdateRequiresStsRestart = true ∧
      (Update L ⟨inst, false⟩ cm).builder.UpdateRequiresStsRestart = false := by
  refine ⟨rfl, ?_⟩
  rcases Update_builder_or_ok L ⟨inst, false⟩ cm with h | h
  · rw [h]
  · obtain ⟨opc, uc, uc2, m, p, u, _, _, _, _, _, _, hU⟩ := Update_of_ok L _ cm h
    rw [hU]
    rfl

/-- C15: `Build` never fails; the object it returns is named by `ChildResourceName` for the
suffix `server-conf`, that is `<clusterName>-server-conf`, lies in the cluster's namespace
and has no data entry. -/
theorem Build_skeleton (M : MetadataFuncs) (b : ServerConfigMapBuilder) :
    ∃ obj, Build M b = some obj ∧
      obj.Name = b.Instance.ChildResourceName "server-conf" ∧
      obj.Name = b.Instance.Name ++ "-server-conf" ∧
      obj.Namespace = b.Instance.Namespace ∧
      obj.Data = [] ∧ ∀ k, Data.get obj.Data k = none := by
  refine ⟨_, rfl, rfl, ?_, rfl, rfl, fun k => rfl⟩
  show b.Instance.Name ++ "-" ++ "server-conf" = b.Instance.Name ++ "-server-conf"
  rw [String.append_assoc]
  rfl

theorem operatorSection_congr (i1 i2 : RabbitmqCluster) (base : Section)
    (hname : i1.Name = i2.Name) (hns : i1.Namespace = i2.Namespace)
    (hrep : Int32PtrDerefOr i1.Spec.Replicas 1 = Int32PtrDerefOr i2.Spec.Replicas 1) :
    operatorSection i1 base = operatorSection i2 base := by
  have hnode : nodeEntry i1 = nodeEntry i2 := by
    funext i
    simp only [nodeEntry, RabbitmqCluster.ChildResourceName, hname, hns]
  unfold operatorSection
  rw [hnode, hrep, hname]

/-- C19: for two clusters with the same name, namespace and replica count, whatever else
their specs say and whatever the two objects held, successful calls of `Update` leave the
same text under `operatorDefaults.conf`. -/
theorem operator_defaults_of_identity_and_replicas (L : Libs) (b1 b2 : ServerConfigMapBuilder)
    (cm1 cm2 : ConfigMap)
    (hname : b1.Instance.Name = b2.Instance.Name)
    (hns : b1.Instance.Namespace = b2.Instance.Namespace)
    (hrep : Int32PtrDerefOr b1.Instance.Spec.Replicas 1 =
      Int32PtrDerefOr b2.Instance.Spec.Replicas 1)
    (h1 : (Update L b1 cm1).err = false) (h2 : (Update L b2 cm2).err = false) :
    ∃ text, Data.get (Update L b1 cm1).object.Data "operatorDefaults.conf" = some text ∧
      Data.get (Update L b2 cm2).object.Data "operatorDefaults.conf" = some text := by
  obtain ⟨opc1, _, uc1, m1, _, _, g1, _, _, _, _, _, hU1⟩ := Update_of_ok L b1 cm1 h1
  obtain ⟨opc2, _, uc2, m2, _, _, g2, _, _, _, _, _, hU2⟩ := Update_of_ok L b2 cm2 h2
  rw [operatorConfiguration_eq] at g1 g2
  cases hb : Load L defaultRabbitmqConf with
  | none => simp [hb] at g1
  | some base =>
    rw [hb] at g1 g2
    simp only [Option.map_some', Option.some.injEq] at g1 g2
    refine ⟨L.render opc1, ?_, ?_⟩
    · rw [hU1]
      exact Data.get_renderedData_operator L _ _ _ _
    · rw [hU2, ← g1, operatorSection_congr _ _ base hname hns hrep, g2]
      exact Data.get_renderedData_operator L _ _ _ _

theorem operator_defaults_of_identity_and_replicas_witness :
    Sample.cluster.Spec ≠ Sample.tlsCluster.Spec ∧
      (Update Plain.libs (ServerConfigMap Sample.cluster) Sample.configMap).err = false ∧
      (Update Plain.libs (ServerConfigMap Sample.tlsCluster) Sample.staleConfigMap).err = false ∧
      ∃ text,
        Data.get (Update Plain.libs (ServerConfigMap Sample.cluster)
          Sample.configMap).object.Data "operatorDefaults.conf" = some text ∧
        Data.get (Update Plain.libs (ServerConfigMap Sample.tlsCluster)
          Sample.staleConfigMap).object.Data "operatorDefaults.conf" = some text :=
  ⟨by decide, by decide, by decide,
    operator_defaults_of_identity_and_replicas Plain.libs (ServerConfigMap Sample.cluster)
      (ServerConfigMap Sample.tlsCluster) Sample.configMap Sample.staleConfigMap rfl rfl rfl
      (by decide) (by decide)⟩

/-- C16, as the code has it: on an object whose `operatorDefaults.conf` is not empty and
loads as the file `conf`, `removeConfigNotRequiringNodeRestart` succeeds; the new
`operatorDefaults.conf` is the text written for `conf` with the entries of its unnamed
section whose key begins with `cluster_formation.classic_config.nodes.` removed, the other
entries of that section in their order, and its named sections as they are, whatever their
keys; the metadata and every other data entry are as before; and, when the ini library
reads that text back as written, the new `operatorDefaults.conf` holds exactly those
entries and the function applied to the result returns the result.  An object whose `operatorDefaults.conf` is missing or empty is returned as it is. -/
theorem removeConfig_removes_peer_entries (L : Libs) (cm : ConfigMap) (conf : File)
    (hne : Data.index cm.Data "operatorDefaults.conf" ≠ "")
    (hload : LoadFile L (Data.index cm.Data "operatorDefaults.conf") = some conf) :
    (∃ p, removeConfigNotRequiringNodeRestart L cm = some p ∧
      p.toObjectMeta = cm.toObjectMeta ∧
      Data.get p.Data "operatorDefaults.conf" =
        some (WriteTo L
          { Default := conf.Default.filter (fun kv =>
              !HasPrefix kv.1 "cluster_formation.classic_config.nodes."),
            Named := conf.Named }) ∧
      (∀ k, k ≠ "operatorDefaults.conf" → Data.get p.Data k = Data.get cm.Data k) ∧
      (LoadFile L (WriteTo L
          { Default := conf.Default.filter (fun kv =>
              !HasPrefix kv.1 "cluster_formation.classic_config.nodes."),
            Named := conf.Named }) =
        some
          { Default := conf.Default.filter (fun kv =>
              !HasPrefix kv.1 "cluster_formation.classic_config.nodes."),
            Named := conf.Named } →
        LoadFile L (Data.index p.Data "operatorDefaults.conf") =
            some
              { Default := conf.Default.filter (fun kv =>
                  !HasPrefix kv.1 "cluster_formation.classic_config.nodes."),
                Named := conf.Named } ∧
          removeConfigNotRequiringNodeRestart L p = some p)) ∧
    (∀ other : ConfigMap, Data.index other.Data "operatorDefaults.conf" = "" →
      removeConfigNotRequiringNodeRestart L other = some other) := by
  have hkeep : (fun kv : String × String =>
      !HasPrefix kv.1 "cluster_formation.classic_config.nodes.") = keepsEntry := rfl
  rw [hkeep]
  have hop : ("operatorDefaults.conf" : String) = operatorDefaults := rfl
  rw [hop] at hne hload ⊢
  constructor
  · have hdel : deleteNodeKeys conf.Default = conf.Default.filter keepsEntry :=
      deleteNodeKeys_eq_filter conf.Default (LoadFile_nodup L _ conf hload)
    have hp : removeConfigNotRequiringNodeRestart L cm =
        some
          { toObjectMeta := cm.toObjectMeta,
            Data :=
              Data.set cm.Data operatorDefaults
                (WriteTo L { Default := conf.Default.filter keepsEntry, Named := conf.Named }) } := by
      rw [removeConfig_eq, if_neg hne, hload, ← hdel]
      rfl
    refine ⟨_, hp, rfl, ?_, ?_, ?_⟩
    · simp [Data.get_set]
    · intro k hk
      simp [Data.get_set, hk]
    · intro hread
      have hidx : Data.index (Data.set cm.Data operatorDefaults
          (WriteTo L { Default := conf.Default.filter keepsEntry, Named := conf.Named }))
            operatorDefaults =
            WriteTo L { Default := conf.Default.filter keepsEntry, Named := conf.Named } := by
        simp [Data.index, Data.get_set]
      refine ⟨by rw [hidx]; exact hread, ?_⟩
      rw [removeConfig_eq]
      simp only [hidx]
      split
      · rfl
      · rw [hread]
        have hdel2 : deleteNodeKeys (conf.Default.filter keepsEntry) =
            conf.Default.filter keepsEntry := by
          have hnd := LoadFile_nodup L _ _ hread
          rw [deleteNodeKeys_eq_filter _ hnd, List.filter_filter]
          simp
        simp only [Option.map_some', hdel2, Option.some.injEq]
        congr 1
        simp only [Data.set, Data.delete, List.filter_cons, bne_self_eq_false,
          Bool.false_eq_true, if_false, List.filter_filter, Bool.and_self]
  · intro other ho
    rw [removeConfig_eq, if_pos ho]

theorem removeConfig_removes_peer_entries_witness :
    Data.index (Update Plain.libs (ServerConfigMap Sample.cluster)
        Sample.configMap).object.Data "operatorDefaults.conf" ≠ "" ∧
      ∃ p,
        removeConfigNotRequiringNodeRestart Plain.libs
          (Update Plain.libs (ServerConfigMap Sample.cluster) Sample.configMap).object =
            some p ∧
        Data.get p.Data "operatorDefaults.conf" =
          some (Plain.libs.render (defaultRabbitmqEntries ++ [("cluster_name", "rabbit")])) ∧
        removeConfigNotRequiringNodeRestart Plain.libs p = some p :=
  ⟨by decide, by
    obtain ⟨⟨p, hp, _, hget, _, hidem⟩, _⟩ :=
      removeConfig_removes_peer_entries Plain.libs
        (Update Plain.libs (ServerConfigMap Sample.cluster) Sample.configMap).object
        { Default := operatorSection Sample.cluster defaultRabbitmqEntries, Named := [] }
        (by decide) (by decide)
    exact ⟨p, hp, hget, (hidem (by decide)).2⟩⟩

/-- C16 fails as stated: the `operatorDefaults.conf` of this object parses, with the
cluster name in the unnamed section and a key of the peer list in the section
`[federation]`; `removeConfigNotRequiringNodeRestart` succeeds, and the text it leaves
still holds that key: it loads as the same file. -/
theorem peer_entry_in_named_section_survives :
    LoadFile Plain.libs (Data.index Sample.sectionedConfigMap.Data "operatorDefaults.conf") =
        some
          { Default := [("cluster_name", "rabbit")],
            Named :=
              [("federation",
                [("cluster_formation.classic_config.nodes.1",
                  "rabbit@rabbit-server-0.rabbit-headless.prod")])] } ∧
      (removeConfigNotRequiringNodeRestart Plain.libs Sample.sectionedConfigMap).map
          (fun p => Data.get p.Data "operatorDefaults.conf") =
        some (some
          "cluster_name = rabbit\n[federation]\ncluster_formation.classic_config.nodes.1 = rabbit@rabbit-server-0.rabbit-headless.prod\n") ∧
      (removeConfigNotRequiringNodeRestart Plain.libs Sample.sectionedConfigMap).bind
          (fun p => LoadFile Plain.libs (Data.index p.Data "operatorDefaults.conf")) =
        some
          { Default := [("cluster_name", "rabbit")],
            Named :=
              [("federation",
                [("cluster_formation.classic_config.nodes.1",
                  "rabbit@rabbit-server-0.rabbit-headless.prod")])] } := by
  decide

/-- C21: `removeHeadroom` is monotone on memory limits: for `0 ≤ a ≤ b`, with `b` a 64-bit
signed integer, `removeHeadroom a ≤ removeHeadroom b`, also when `a` falls in the 20% branch
and `b` under the cap of 2 GiB. -/
theorem removeHeadroom_monotone (a b : Int) (ha : 0 ≤ a) (hab : a ≤ b) (hb : b < 2 ^ 63) :
    removeHeadroom a ≤ removeHeadroom b := by
  unfold removeHeadroom GiB
  norm_num at hb
  obtain ⟨hpa, -⟩ := tdiv_five_bounds a
  obtain ⟨hpb, -⟩ := tdiv_five_bounds b
  have hpa := hpa ha
  have hpb := hpb (by omega)
  generalize a.tdiv 5 = qa at hpa ⊢
  generalize b.tdiv 5 = qb at hpb ⊢
  split <;> split <;>
    rw [wrapInt64_of_range _ (by omega) (by omega), wrapInt64_of_range _ (by omega) (by omega)] <;>
    omega

theorem removeHeadroom_monotone_witness :
    ((0 : Int) ≤ 10737418240 ∧ (10737418240 : Int) ≤ 10737418245 ∧
        (10737418245 : Int) < 2 ^ 63) ∧
      removeHeadroom 10737418240 ≤ removeHeadroom 10737418245 :=
  ⟨by decide, removeHeadroom_monotone 10737418240 10737418245 (by decide) (by decide)
    (by decide)⟩

end Resource
